import Mathlib

/-! # nxcppthread: locks, multi-lock algorithm, condition variable, threads

A shallow embedding of `include/mutex.h`, `include/condition_variable.h`,
`include/thread.h` and `source/thread.cpp`.

Conventions of the embedding.

* A lockable object is named by a natural number (its address).  A pointer to
  a lockable is an `Option Nat`, `none` being `nullptr`.
* The kernel and the other threads are an environment `Env` of oracles: the
  outcome of the k-th `try_lock`, the result code of the k-th condition
  variable wait, the value of the k-th evaluation of the user predicate and
  the k-th clock reading.  Every possible behaviour of the surroundings is
  some `Env`.
* The `World` is what the calling thread has done so far: how many times each
  oracle was consulted, how many times the caller holds each lockable, and
  the log of the calls it made, oldest first.
* `THROW(code)` is the outcome `Outcome.raise code`; dereferencing a null
  pointer is the outcome `Outcome.undefined`.
* Time points and durations are signed 64-bit counts of nanoseconds, held in
  an `Int`; the one addition of two of them (`now() + rel_time`) is reduced by
  `int64`, and the differences `atime - now` reach the kernel reduced modulo
  2^64 by the conversion to the unsigned timeout.
* Loops without a bound take a fuel argument; `none` means that the fuel ran
  out before the loop was left.
* The thread library's calls on the kernel and the allocator are answered by a
  `Kernel` record and logged in `Globals`, next to the file-scope variables of
  `source/thread.cpp`.
* Two threads running the multi-lock concurrently are a step relation on
  `Race`, one step being one mutex call of one thread.
-/

namespace NxThread

/-! ## Outcomes and error codes -/

/-- The three `std::errc` codes the library raises. -/
inductive errc where
  | operation_not_permitted
  | resource_deadlock_would_occur
  | resource_unavailable_try_again
  deriving DecidableEq, Repr

/-- How a call ends: it returns a value, `THROW`s a code, or has dereferenced a
null pointer. -/
inductive Outcome (α : Type) where
  | ret (a : α)
  | raise (e : errc)
  | undefined
  deriving DecidableEq, Repr

/-! ## The environment and the world -/

/-- One call made by the calling thread, with what it returned. -/
inductive Event where
  | mutexLock (m : Nat)
  | mutexTryLock (m : Nat) (ok : Bool)
  | mutexUnlock (m : Nat)
  | condvarWait (m : Nat) (res : Nat)
  | condvarWaitTimeout (m : Nat) (ns : Nat) (res : Nat)
  | pred (b : Bool)
  | now (t : Int)
  deriving DecidableEq, Repr

/-- The surroundings of the calling thread (kernel, other threads, user
callables, clock), as oracles indexed by the number of earlier consultations. -/
structure Env where
  /-- outcome of the k-th `try_lock` on a lockable -/
  tryOk : Nat → Bool
  /-- kernel result code of the k-th `condvarWait` / `condvarWaitTimeout` -/
  waitRes : Nat → Nat
  /-- value of the k-th evaluation of the user predicate -/
  predVal : Nat → Bool
  /-- the k-th reading of `Clock::now()`, in nanoseconds -/
  clock : Nat → Int

/-- What the calling thread has done so far. -/
structure World where
  nTry : Nat
  nWait : Nat
  nPred : Nat
  nNow : Nat
  /-- how many times the caller currently holds each lockable -/
  held : Nat → Nat
  /-- calls made so far, oldest first -/
  log : List Event

/-- The world before the caller has done anything: nothing held, empty log. -/
def World.init : World :=
  { nTry := 0, nWait := 0, nPred := 0, nNow := 0, held := fun _ => 0, log := [] }

/-! ## `mutex` (include/mutex.h, lines 14-34) -/

/-- Modelled from the spec: the kernel primitive `mutexLock` behind
`mutex::lock()` ("blocks until acquired"): on return the caller holds the
lockable once more. -/
def mutex.lock (m : Nat) (w : World) : World :=
  { w with held := fun k => if k = m then w.held k + 1 else w.held k,
           log := w.log ++ [Event.mutexLock m] }

/-- Modelled from the spec: the kernel primitive `mutexTryLock` behind
`mutex::try_lock()` ("non-blocking, returns whether acquired, never fails
with an error"): the environment decides the outcome; on success the caller
holds the lockable once more. -/
def mutex.try_lock (env : Env) (m : Nat) (w : World) : Bool × World :=
  let ok := env.tryOk w.nTry
  (ok, { w with nTry := w.nTry + 1,
                held := fun k => if k = m ∧ ok = true then w.held k + 1 else w.held k,
                log := w.log ++ [Event.mutexTryLock m ok] })

/-- Modelled from the spec: the kernel primitive `mutexUnlock` behind
`mutex::unlock()` ("releases"): the caller holds the lockable once less. -/
def mutex.unlock (m : Nat) (w : World) : World :=
  { w with held := fun k => if k = m then w.held k - 1 else w.held k,
           log := w.log ++ [Event.mutexUnlock m] }

/-! ## `lock_guard` (include/mutex.h, lines 67-81) -/

/-- The constructor `lock_guard(mutex_type& m) : pm(m) { m.lock(); }`. -/
def lock_guard.ctor (m : Nat) (w : World) : World :=
  mutex.lock m w

/-- The destructor `~lock_guard() { pm.unlock(); }`. -/
def lock_guard.dtor (pm : Nat) (w : World) : World :=
  mutex.unlock pm w

/-! ## The multi-lock algorithm (include/mutex.h, lines 174-209) -/

/-- The two overloads of `_try_lock_impl(int idx, MutexA& first, Mutexes&... cde)`:
`first.try_lock() ? -1 : idx` for one lockable and
`first.try_lock() ? _try_lock_impl(idx, cde...) : idx` for more. -/
def _try_lock_impl (env : Env) (idx : Int) : Nat → List Nat → World → Int × World
  | first, [], w =>
    let r := mutex.try_lock env first w
    (if r.1 then -1 else idx, r.2)
  | first, c :: de, w =>
    let r := mutex.try_lock env first w
    if r.1 then _try_lock_impl env idx c de r.2 else (idx, r.2)

/-- The standalone `try_lock(Mutex1& a, Mutex2& b, Mutexes&... cde)`:
`return _try_lock_impl(0, a, b, cde...);`. -/
def try_lock (env : Env) (a b : Nat) (cde : List Nat) (w : World) : Int × World :=
  _try_lock_impl env 0 a (b :: cde) w

/-- The two overloads of `_lock_impl_helper(int idx, MutexA& first, Mutexes&... cde)`.
For one lockable it is `_try_lock_impl(idx, first)`; for more, a successful
`first.try_lock()` is followed by the recursive call at `idx + 1`, and `first`
is unlocked again when that call did not return -1. -/
def _lock_impl_helper (env : Env) : Int → Nat → List Nat → World → Int × World
  | idx, first, [], w => _try_lock_impl env idx first [] w
  | idx, first, c :: de, w =>
    let r := mutex.try_lock env first w
    if r.1 then
      let res := _lock_impl_helper env (idx + 1) c de r.2
      (res.1, if res.1 ≠ -1 then mutex.unlock first res.2 else res.2)
    else (idx, r.2)

/-- The multi-lock `lock(Mutex1& a, Mutex2& b, Mutexes&... cde)`:
`while (true) { lock_guard<Mutex1> first(a); if (_lock_impl_helper(0, b, cde...) == -1) return; }`.
The guard `first` is a local of the loop body, so its destructor runs when the
body is left, by `return` as well as at the end of an iteration. -/
def lock (env : Env) : Nat → Nat → Nat → List Nat → World → Option World
  | 0, _, _, _, _ => none
  | fuel + 1, a, b, cde, w =>
    let w1 := lock_guard.ctor a w
    let res := _lock_impl_helper env 0 b cde w1
    let w2 := lock_guard.dtor a res.2
    if res.1 = -1 then some w2 else lock env fuel a b cde w2

/-! ## `unique_lock` (include/mutex.h, lines 83-172) -/

/-- The class `unique_lock<Mutex>`: its two data members `mutex_type *pm` and
`bool owns`. -/
structure unique_lock where
  pm : Option Nat
  owns : Bool
  deriving DecidableEq, Repr

/-- What a member call leaves behind: its outcome, the object it was called on
and the world. -/
structure Call (α : Type) where
  out : Outcome α
  self : unique_lock
  world : World

/-- The constructor `unique_lock() noexcept : pm(nullptr), owns(false)`. -/
def unique_lock.ctor_default : unique_lock :=
  { pm := none, owns := false }

/-- The constructor `unique_lock(mutex_type& m) : pm(&m), owns(true) { pm->lock(); }`. -/
def unique_lock.ctor_lock (m : Nat) (w : World) : unique_lock × World :=
  ({ pm := some m, owns := true }, mutex.lock m w)

/-- The constructor `unique_lock(mutex_type& m, defer_lock_t) : pm(&m), owns(false)`. -/
def unique_lock.ctor_defer (m : Nat) : unique_lock :=
  { pm := some m, owns := false }

/-- The constructor
`unique_lock(mutex_type& m, try_to_lock_t) : pm(&m), owns(pm->try_lock())`. -/
def unique_lock.ctor_try (env : Env) (m : Nat) (w : World) : unique_lock × World :=
  let r := mutex.try_lock env m w
  ({ pm := some m, owns := r.1 }, r.2)

/-- The constructor `unique_lock(mutex_type& m, adopt_lock_t) : pm(&m), owns(true)`. -/
def unique_lock.ctor_adopt (m : Nat) : unique_lock :=
  { pm := some m, owns := true }

/-- The destructor `~unique_lock() { if (owns) pm->unlock(); }`. -/
def unique_lock.dtor (u : unique_lock) (w : World) : Outcome Unit × World :=
  if u.owns then
    match u.pm with
    | some m => (Outcome.ret (), mutex.unlock m w)
    | none => (Outcome.undefined, w)
  else (Outcome.ret (), w)

/-- The move constructor
`unique_lock(unique_lock&& u) : pm(u.pm), owns(u.owns) { u.pm = nullptr; u.owns = false; }`:
the new object, then `u` afterwards.  No member of the mutex is called. -/
def unique_lock.ctor_move (u : unique_lock) : unique_lock × unique_lock :=
  ({ pm := u.pm, owns := u.owns }, { u with pm := none, owns := false })

/-- The member `void lock()`. -/
def unique_lock.lock (u : unique_lock) (w : World) : Call Unit :=
  match u.pm with
  | none => { out := Outcome.raise errc.operation_not_permitted, self := u, world := w }
  | some m =>
    if u.owns then
      { out := Outcome.raise errc.resource_deadlock_would_occur, self := u, world := w }
    else
      { out := Outcome.ret (), self := { u with owns := true }, world := mutex.lock m w }

/-- The member `bool try_lock()`; its last branch is
`return (owns = pm->try_lock());`. -/
def unique_lock.try_lock (env : Env) (u : unique_lock) (w : World) : Call Bool :=
  match u.pm with
  | none => { out := Outcome.raise errc.operation_not_permitted, self := u, world := w }
  | some m =>
    if u.owns then
      { out := Outcome.raise errc.resource_deadlock_would_occur, self := u, world := w }
    else
      let r := mutex.try_lock env m w
      { out := Outcome.ret r.1, self := { u with owns := r.1 }, world := r.2 }

/-- The member `void unlock()`:
`if (!owns) THROW(...); else if (pm) { pm->unlock(); owns = false; }`. -/
def unique_lock.unlock (u : unique_lock) (w : World) : Call Unit :=
  if !u.owns then
    { out := Outcome.raise errc.operation_not_permitted, self := u, world := w }
  else
    match u.pm with
    | some m => { out := Outcome.ret (), self := { u with owns := false }, world := mutex.unlock m w }
    | none => { out := Outcome.ret (), self := u, world := w }

/-- The member `mutex_type* release()`:
`owns = false; auto mutex = pm; pm = nullptr; return mutex;`. -/
def unique_lock.release (u : unique_lock) : Option Nat × unique_lock :=
  (u.pm, { u with owns := false, pm := none })

/-- The `unique_lock` values that the public interface can produce: those built
by a constructor, and those left behind by a member call or a move on values
that can be produced, in any world and environment.

The members `swap(unique_lock&)` and `operator=(unique_lock&&)` have no
embedding of their own: the body of `swap` calls `swap(pm, u.pm)` and
`swap(owns, u.owns)` without qualification, inside the class the name `swap` is
the one-parameter member itself, so the member cannot be instantiated, and the
move assignment calls it.  The set is nevertheless closed under what the two
members are written to do, the exchange of the two fields between two locks
(`swap_self`, `swap_other`) and the transfer of the two fields from a lock that
is left with a null `pm` and `owns` clear (`assign_move_self`,
`assign_move_other`), so that nothing proved about the set rests on the two
members being uncallable. -/
inductive Reachable : unique_lock → Prop where
  | ctor_default : Reachable unique_lock.ctor_default
  | ctor_lock (m : Nat) (w : World) : Reachable (unique_lock.ctor_lock m w).1
  | ctor_defer (m : Nat) : Reachable (unique_lock.ctor_defer m)
  | ctor_try (env : Env) (m : Nat) (w : World) : Reachable (unique_lock.ctor_try env m w).1
  | ctor_adopt (m : Nat) : Reachable (unique_lock.ctor_adopt m)
  | ctor_move_new (u : unique_lock) : Reachable u → Reachable (unique_lock.ctor_move u).1
  | ctor_move_old (u : unique_lock) : Reachable u → Reachable (unique_lock.ctor_move u).2
  | assign_move_self (a b : unique_lock) :
      Reachable a → Reachable b → Reachable { a with pm := b.pm, owns := b.owns }
  | assign_move_other (a b : unique_lock) :
      Reachable a → Reachable b → Reachable { b with pm := none, owns := false }
  | lock (u : unique_lock) (w : World) : Reachable u → Reachable (unique_lock.lock u w).self
  | try_lock (env : Env) (u : unique_lock) (w : World) :
      Reachable u → Reachable (unique_lock.try_lock env u w).self
  | unlock (u : unique_lock) (w : World) : Reachable u → Reachable (unique_lock.unlock u w).self
  | swap_self (a b : unique_lock) :
      Reachable a → Reachable b → Reachable { a with pm := b.pm, owns := b.owns }
  | swap_other (a b : unique_lock) :
      Reachable a → Reachable b → Reachable { b with pm := a.pm, owns := a.owns }
  | release (u : unique_lock) : Reachable u → Reachable (unique_lock.release u).2

/-! ## `condition_variable` (include/condition_variable.h) -/

/-- The enumeration `cv_status`. -/
inductive cv_status where
  | no_timeout
  | timeout
  deriving DecidableEq, Repr

/-- Modelled from the spec: the kernel macro `R_SUCCEEDED(res)`, which holds for
the success code 0 and for no other result code. -/
def R_SUCCEEDED (res : Nat) : Bool :=
  res == 0

/-- Modelled from the spec: the kernel macro `R_FAILED(res)`, which holds for
every result code other than the success code 0. -/
def R_FAILED (res : Nat) : Bool :=
  res != 0

/-- Modelled from the spec: the kernel primitive `condvarWait(&handle_, m)`
("wait (blocking, takes a lock handle)"): the environment decides the result
code; the mutex is released and reacquired, so the caller holds what it held. -/
def condvarWait (env : Env) (m : Nat) (w : World) : Nat × World :=
  let res := env.waitRes w.nWait
  (res, { w with nWait := w.nWait + 1, log := w.log ++ [Event.condvarWait m res] })

/-- Modelled from the spec: the kernel primitive
`condvarWaitTimeout(&handle_, m, timeout)` ("timed-wait (blocking with a
nanosecond timeout, returns a result code where a specific sentinel value
denotes timeout)"): the environment decides the result code. -/
def condvarWaitTimeout (env : Env) (m : Nat) (timeout : Nat) (w : World) : Nat × World :=
  let res := env.waitRes w.nWait
  (res, { w with nWait := w.nWait + 1, log := w.log ++ [Event.condvarWaitTimeout m timeout res] })

/-- One evaluation `pred()` of the user predicate: the environment decides its
value. -/
def call_pred (env : Env) (w : World) : Bool × World :=
  let b := env.predVal w.nPred
  (b, { w with nPred := w.nPred + 1, log := w.log ++ [Event.pred b] })

/-- One reading `Clock::now()`, in nanoseconds: the environment decides it. -/
def Clock.now (env : Env) (w : World) : Int × World :=
  let t := env.clock w.nNow
  (t, { w with nNow := w.nNow + 1, log := w.log ++ [Event.now t] })

/-- The private member `cv_status _handle_result(Result res)`. -/
def condition_variable._handle_result (res : Nat) : Outcome cv_status :=
  if R_SUCCEEDED res then Outcome.ret cv_status.no_timeout
  else if res = 0xEA01 then Outcome.ret cv_status.timeout
  else Outcome.raise errc.resource_unavailable_try_again

/-- The member `void wait(unique_lock<mutex>& lock)`:
`if (R_FAILED(condvarWait(&handle_, lock.mutex()->native_handle()))) THROW(...)`. -/
def condition_variable.wait (env : Env) (lock : unique_lock) (w : World) : Outcome Unit × World :=
  match lock.pm with
  | none => (Outcome.undefined, w)
  | some m =>
    let r := condvarWait env m w
    if R_FAILED r.1 then (Outcome.raise errc.resource_unavailable_try_again, r.2)
    else (Outcome.ret (), r.2)

/-- The member `void wait(unique_lock<mutex>& lock, Predicate pred)`:
`while (!pred()) wait(lock);`. -/
def condition_variable.wait_pred (env : Env) (lock : unique_lock) :
    Nat → World → Option (Outcome Unit × World)
  | 0, _ => none
  | fuel + 1, w =>
    let p := call_pred env w
    if !p.1 then
      let r := condition_variable.wait env lock p.2
      match r.1 with
      | Outcome.ret _ => condition_variable.wait_pred env lock fuel r.2
      | Outcome.raise e => some (Outcome.raise e, r.2)
      | Outcome.undefined => some (Outcome.undefined, r.2)
    else some (Outcome.ret (), p.2)

/-- The member `cv_status wait_for(unique_lock<mutex>& lock, const duration& rel_time)`,
`rel_time` being the count of nanoseconds of the duration:
`_handle_result(condvarWaitTimeout(&handle_, lock.mutex()->native_handle(), count))`,
the signed 64-bit count being passed as the unsigned 64-bit timeout. -/
def condition_variable.wait_for (env : Env) (lock : unique_lock) (rel_time : Int) (w : World) :
    Outcome cv_status × World :=
  match lock.pm with
  | none => (Outcome.undefined, w)
  | some m =>
    let r := condvarWaitTimeout env m (rel_time % 2 ^ 64).toNat w
    (condition_variable._handle_result r.1, r.2)

/-- The loop `while (now < atime) { ... }` of `wait_until(lock, atime)` with the
statement `return cv_status::timeout;` that follows it. -/
def condition_variable.wait_until_loop (env : Env) (lock : unique_lock) (atime : Int) :
    Nat → Int → World → Option (Outcome cv_status × World)
  | 0, _, _ => none
  | fuel + 1, now, w =>
    if now < atime then
      let r := condition_variable.wait_for env lock (atime - now) w
      match r.1 with
      | Outcome.ret cv_status.no_timeout => some (Outcome.ret cv_status.no_timeout, r.2)
      | Outcome.ret cv_status.timeout =>
        let n := Clock.now env r.2
        condition_variable.wait_until_loop env lock atime fuel n.1 n.2
      | Outcome.raise e => some (Outcome.raise e, r.2)
      | Outcome.undefined => some (Outcome.undefined, r.2)
    else some (Outcome.ret cv_status.timeout, w)

/-- The member `cv_status wait_until(unique_lock<mutex>& lock, const time_point& atime)`
for a clock with the given `is_steady`; time points are nanosecond counts.  The
difference `atime - now` is taken exactly: it is used only as the argument of
`wait_for`, which reduces it modulo 2^64, as it does the signed 64-bit
difference of the code. -/
def condition_variable.wait_until (env : Env) (is_steady : Bool) (lock : unique_lock)
    (atime : Int) (fuel : Nat) (w : World) : Option (Outcome cv_status × World) :=
  let n := Clock.now env w
  if is_steady && decide (n.1 < atime) then
    some (condition_variable.wait_for env lock (atime - n.1) n.2)
  else
    condition_variable.wait_until_loop env lock atime fuel n.1 n.2

/-- The member
`bool wait_until(unique_lock<mutex>& lock, const time_point& abs_time, Predicate pred)`:
`while (!pred()) if (wait_until(lock, abs_time) == cv_status::timeout) return pred(); return true;`. -/
def condition_variable.wait_until_pred (env : Env) (is_steady : Bool) (lock : unique_lock)
    (abs_time : Int) : Nat → World → Option (Outcome Bool × World)
  | 0, _ => none
  | fuel + 1, w =>
    let p := call_pred env w
    if !p.1 then
      match condition_variable.wait_until env is_steady lock abs_time (fuel + 1) p.2 with
      | none => none
      | some (Outcome.ret cv_status.timeout, w2) =>
        let q := call_pred env w2
        some (Outcome.ret q.1, q.2)
      | some (Outcome.ret cv_status.no_timeout, w2) =>
        condition_variable.wait_until_pred env is_steady lock abs_time fuel w2
      | some (Outcome.raise e, w2) => some (Outcome.raise e, w2)
      | some (Outcome.undefined, w2) => some (Outcome.undefined, w2)
    else some (Outcome.ret true, p.2)

/-- The value a signed 64-bit integer holds after an addition whose exact
result is `x`: `x` itself when it fits, and `x` reduced modulo 2^64 into the
range from -2^63 to 2^63 - 1 when the addition overflows. -/
def int64 (x : Int) : Int :=
  (x + 2 ^ 63) % 2 ^ 64 - 2 ^ 63

/-- The member
`bool wait_for(unique_lock<mutex>& lock, const duration& rel_time, Predicate pred)`:
`return wait_until(lock, std::chrono::steady_clock::now() + rel_time, std::move(pred));`.
The deadline is the sum of two signed 64-bit counts of nanoseconds. -/
def condition_variable.wait_for_pred (env : Env) (lock : unique_lock) (rel_time : Int)
    (fuel : Nat) (w : World) : Option (Outcome Bool × World) :=
  let n := Clock.now env w
  condition_variable.wait_until_pred env true lock (int64 (n.1 + rel_time)) fuel n.2

/-- The calls of `n` rounds of the loop of `wait(lock, pred)` on mutex `m`: in
each round the predicate is false and `condvarWait` returns the success code. -/
def waitRounds (m : Nat) : Nat → List Event
  | 0 => []
  | n + 1 => Event.pred false :: Event.condvarWait m 0 :: waitRounds m n

/-- An environment in which the predicate is false twice and then true, every
wait returns the success code, and the clock stands at 0. -/
def envThirdTrue : Env :=
  { tryOk := fun _ => true, waitRes := fun _ => 0, predVal := fun k => decide (2 ≤ k),
    clock := fun _ => 0 }

/-- An environment in which the predicate is always false, every timed wait
returns the timeout sentinel, and the clock stands at 0. -/
def envTimeout : Env :=
  { tryOk := fun _ => true, waitRes := fun _ => 0xEA01, predVal := fun _ => false,
    clock := fun _ => 0 }

/-- The calls of `n` rounds of the loop of `wait_until(lock, atime)` on mutex
`m`, entered with the last clock reading `now` while the next reading is the
one numbered `i`: in each round the timed wait for the remaining span returns
the timeout sentinel and the clock is read again. -/
def untilRounds (env : Env) (m : Nat) (atime : Int) : Nat → Int → Nat → List Event
  | 0, _, _ => []
  | n + 1, now, i =>
    Event.condvarWaitTimeout m ((atime - now) % 2 ^ 64).toNat 0xEA01
      :: Event.now (env.clock i)
      :: untilRounds env m atime n (env.clock i) (i + 1)

/-- The most recent clock reading after `n` such rounds. -/
def untilNow (env : Env) : Nat → Int → Nat → Int
  | 0, now, _ => now
  | n + 1, _, i => untilNow env n (env.clock i) (i + 1)

/-- An environment whose clock reads 0, 10, 20, ... and in which every timed
wait returns the timeout sentinel. -/
def envClockAdvances : Env :=
  { tryOk := fun _ => true, waitRes := fun _ => 0xEA01, predVal := fun _ => false,
    clock := fun k => 10 * (k : Int) }

/-! ## `thread::id` (include/thread.h, lines 19-35 and 93-104) -/

/-- The class `thread::id`: its data member `native_handle_type handle_`, a
pointer, taken as the address it holds (`nullptr` is 0). -/
structure thread.id where
  handle_ : Nat
  deriving DecidableEq, Repr

/-- The free operator `==`: `return lhs.handle_ == rhs.handle_;`. -/
def thread.id.operator_eq (lhs rhs : thread.id) : Bool :=
  decide (lhs.handle_ = rhs.handle_)

/-- The free operator `<`: `return lhs.handle_ < rhs.handle_;`. -/
def thread.id.operator_lt (lhs rhs : thread.id) : Bool :=
  decide (lhs.handle_ < rhs.handle_)

/-- The free operator `!=`: `return !(lhs == rhs);`. -/
def thread.id.operator_ne (lhs rhs : thread.id) : Bool :=
  !(thread.id.operator_eq lhs rhs)

/-- The free operator `>`: `return rhs < lhs;`. -/
def thread.id.operator_gt (lhs rhs : thread.id) : Bool :=
  thread.id.operator_lt rhs lhs

/-- The free operator `>=`: `return !(lhs < rhs);`. -/
def thread.id.operator_ge (lhs rhs : thread.id) : Bool :=
  !(thread.id.operator_lt lhs rhs)

/-- The free operator `<=`: `return !(rhs > lhs);`. -/
def thread.id.operator_le (lhs rhs : thread.id) : Bool :=
  !(thread.id.operator_gt rhs lhs)

/-! ## `thread` (include/thread.h, lines 15-88; source/thread.cpp, lines 35-105) -/

/-- One call made by the thread library on the kernel or the C++ runtime, with
what it returned. -/
inductive KEvent where
  | svcGetThreadPriority (res : Nat)
  | new_Thread (t : Nat)
  | threadCreate (t : Nat) (prio : Nat) (core : Nat) (res : Nat)
  | threadStart (t : Nat) (res : Nat)
  | threadClose (t : Nat)
  | delete_Thread (t : Nat)
  | threadWaitForExit (t : Nat) (res : Nat)
  | threadPause (t : Nat)
  | atexit_free_detached_threads
  deriving DecidableEq, Repr

/-- What the kernel and the allocator answer to the calls of one thread
operation: the result codes of the four kernel calls that return one, the
priority the kernel reports, and the address `new Thread` returns. -/
structure Kernel where
  getPriorityRes : Nat
  priority : Nat
  newThread : Nat
  createRes : Nat
  startRes : Nat
  waitForExitRes : Nat

/-- The file-scope variables of source/thread.cpp, `at_exit_registered`,
`detached_threads` and `next_core`, with the log of the calls made so far,
oldest first. -/
structure Globals where
  at_exit_registered : Bool
  detached_threads : List Nat
  next_core : Nat
  klog : List KEvent
  deriving DecidableEq, Repr

/-- The file-scope variables as initialised:
`at_exit_registered = false`, `detached_threads` empty, `next_core = 0`. -/
def Globals.init : Globals :=
  { at_exit_registered := false, detached_threads := [], next_core := 0, klog := [] }

/-- The default constructor `id() noexcept : handle_(nullptr)`. -/
def thread.id.ctor_default : thread.id :=
  { handle_ := 0 }

/-- The class `thread`: its data member `id id_`. -/
structure thread where
  id_ : thread.id
  deriving DecidableEq, Repr

/-- The default constructor `thread() noexcept = default`. -/
def thread.ctor_default : thread :=
  { id_ := thread.id.ctor_default }

/-- The member `bool joinable() const`: `return !(id_ == id());`. -/
def thread.joinable (t : thread) : Bool :=
  !(thread.id.operator_eq t.id_ thread.id.ctor_default)

/-- What a member call of `thread` leaves behind: its outcome, the object and
the file-scope variables. -/
structure TCall where
  out : Outcome Unit
  self : thread
  globals : Globals

/-- The function `free_detached_threads()`:
`for (auto thread : detached_threads) { threadPause(thread); threadClose(thread); }`. -/
def free_detached_threads (g : Globals) : Globals :=
  let calls := g.detached_threads.foldl
    (fun log t => log ++ [KEvent.threadPause t, KEvent.threadClose t]) g.klog
  { g with klog := calls }

/-- The member `void thread::_create_thread(std::function<void()>* func)`.  The
priority passed to `threadCreate` is the 32-bit unsigned `prio-1`, the core is
`next_core++ % 3`. -/
def thread._create_thread (k : Kernel) (self : thread) (g : Globals) : TCall :=
  let g1 := { g with klog := g.klog ++ [KEvent.svcGetThreadPriority k.getPriorityRes] }
  if R_SUCCEEDED k.getPriorityRes then
    let t := k.newThread
    let g2 := { g1 with
      next_core := g1.next_core + 1,
      klog := g1.klog ++ [KEvent.new_Thread t,
        KEvent.threadCreate t ((k.priority + 2 ^ 32 - 1) % 2 ^ 32) (g1.next_core % 3)
          k.createRes] }
    if R_SUCCEEDED k.createRes then
      let g3 := { g2 with klog := g2.klog ++ [KEvent.threadStart t k.startRes] }
      if R_SUCCEEDED k.startRes then
        { out := Outcome.ret (), self := { self with id_ := { handle_ := t } }, globals := g3 }
      else
        { out := Outcome.raise errc.resource_unavailable_try_again, self := self,
          globals := { g3 with klog := g3.klog ++
            [KEvent.threadClose t, KEvent.delete_Thread t] } }
    else
      { out := Outcome.raise errc.resource_unavailable_try_again, self := self,
        globals := { g2 with klog := g2.klog ++ [KEvent.delete_Thread t] } }
  else
    { out := Outcome.raise errc.resource_unavailable_try_again, self := self, globals := g1 }

/-- The member `void thread::join()`. -/
def thread.join (k : Kernel) (self : thread) (g : Globals) : TCall :=
  if self.joinable then
    let g1 := { g with klog := g.klog ++
      [KEvent.threadWaitForExit self.id_.handle_ k.waitForExitRes] }
    if R_SUCCEEDED k.waitForExitRes then
      { out := Outcome.ret (), self := { self with id_ := thread.id.ctor_default },
        globals := { g1 with klog := g1.klog ++
          [KEvent.threadClose self.id_.handle_, KEvent.delete_Thread self.id_.handle_] } }
    else
      { out := Outcome.raise errc.resource_unavailable_try_again, self := self, globals := g1 }
  else
    { out := Outcome.ret (), self := self, globals := g }

/-- The member `void thread::detach()`:
`detached_threads.push_back(id_.handle_); id_ = id();` and then, when
`at_exit_registered` is false, `atexit(free_detached_threads)` and
`at_exit_registered = true`. -/
def thread.detach (self : thread) (g : Globals) : TCall :=
  let g1 := { g with detached_threads := g.detached_threads ++ [self.id_.handle_] }
  let self1 := { self with id_ := thread.id.ctor_default }
  if !g1.at_exit_registered then
    { out := Outcome.ret (), self := self1,
      globals := { g1 with klog := g1.klog ++ [KEvent.atexit_free_detached_threads],
                           at_exit_registered := true } }
  else
    { out := Outcome.ret (), self := self1, globals := g1 }

/-! ## The exit-notification registry (source/thread.cpp, lines 39-49 and 124-127) -/

/-- The file-scope map `condvars_to_notify`, from a thread identity to the
vector of pairs (condition variable, `unique_lock`) stored for it; a key that
was never used has the empty vector.  A condition variable is named by a
natural number. -/
abbrev Registry := thread.id → List (Nat × unique_lock)

/-- The map `condvars_to_notify` as initialised: empty. -/
def Registry.init : Registry :=
  fun _ => []

/-- What `notify_all_at_thread_exit` leaves behind: its outcome, the caller's
lock object, the map and the world. -/
structure NCall where
  out : Outcome Unit
  arg : unique_lock
  registry : Registry
  world : World

/-- The function
`notify_all_at_thread_exit(condition_variable& cond, unique_lock<std::mutex> lk)`,
called by the thread `self` with the lock object `arg` given as an rvalue:
`condvars_to_notify[this_thread::get_id()].push_back(make_pair(std::ref(cond), std::move(lk)));`.
The parameter `lk` is move-constructed from `arg`, the pair from `lk`, the
stored element from the pair; the pair and `lk` are then destroyed. -/
def notify_all_at_thread_exit (self : thread.id) (cond : Nat) (arg : unique_lock)
    (reg : Registry) (w : World) : NCall :=
  let lk := unique_lock.ctor_move arg
  let pair := unique_lock.ctor_move lk.1
  let elem := unique_lock.ctor_move pair.1
  let reg1 : Registry := fun i => if i = self then reg i ++ [(cond, elem.1)] else reg i
  let d1 := unique_lock.dtor elem.2 w
  match d1.1 with
  | Outcome.ret _ =>
    let d2 := unique_lock.dtor pair.2 d1.2
    { out := d2.1, arg := lk.2, registry := reg1, world := d2.2 }
  | Outcome.raise e => { out := Outcome.raise e, arg := lk.2, registry := reg1, world := d1.2 }
  | Outcome.undefined => { out := Outcome.undefined, arg := lk.2, registry := reg1, world := d1.2 }

/-- The loop `for (auto& pair : ...) { pair.second.unlock(); }` of `thread_entry`
over the stored pairs: the outcome, the pairs afterwards and the world.  A
`THROW` of `unlock()` leaves the loop. -/
def unlock_stored : List (Nat × unique_lock) → World →
    Outcome Unit × List (Nat × unique_lock) × World
  | [], w => (Outcome.ret (), [], w)
  | pair :: rest, w =>
    let c := pair.2.unlock w
    match c.out with
    | Outcome.ret _ =>
      let r := unlock_stored rest c.world
      (r.1, (pair.1, c.self) :: r.2.1, r.2.2)
    | Outcome.raise e => (Outcome.raise e, (pair.1, c.self) :: rest, c.world)
    | Outcome.undefined => (Outcome.undefined, (pair.1, c.self) :: rest, c.world)

/-- The function `thread_entry(void* params)` run as the thread `self`:
`(*func)(); delete func;` and then the loop over
`condvars_to_notify[std::this_thread::get_id()]`.  The callable `func` is any
function on the map and the world. -/
def thread_entry (self : thread.id) (func : Registry × World → Registry × World)
    (reg : Registry) (w : World) : Outcome Unit × Registry × World :=
  let s := func (reg, w)
  let r := unlock_stored (s.1 self) s.2
  (r.1, fun i => if i = self then r.2.1 else s.1 i, r.2.2)

/-- A callable that, as the thread `self`, makes one call of
`notify_all_at_thread_exit` per item `(cond, m)`, in order, each with a lock
that owns the mutex `m`. -/
def register_all (self : thread.id) : List (Nat × Nat) → Registry × World → Registry × World
  | [], s => s
  | item :: rest, s =>
    let c := notify_all_at_thread_exit self item.1 { pm := some item.2, owns := true } s.1 s.2
    register_all self rest (c.registry, c.world)

/-! ## Two threads in the multi-lock (include/mutex.h, lines 186-209)

Thread `t1` runs `lock(A, B)` and thread `t2` runs `lock(B, A)` on two plain
mutexes `A` and `B`.  With two resources the body of `lock` is the sequence
`a.lock()`, `b.try_lock()`, `a.unlock()`, after which the call returns when the
try succeeded and repeats when it failed.  A step of the system is one of these
mutex calls by one of the threads; which thread steps is arbitrary. -/

/-- The two threads. -/
inductive Tid where
  | t1
  | t2
  deriving DecidableEq, Repr

/-- The two mutexes. -/
inductive Mtx where
  | A
  | B
  deriving DecidableEq, Repr

/-- The point a thread has reached in `lock(a, b)`. -/
inductive Pc where
  /-- at `lock_guard<Mutex1> first(a);`, that is before `a.lock()` -/
  | lock_first
  /-- at `_lock_impl_helper(0, b)`, that is before `b.try_lock()` -/
  | try_second
  /-- the helper returned -1: at `return`, before the guard's `a.unlock()` -/
  | return_unlock
  /-- the helper returned 0: at the end of the loop body, before the guard's `a.unlock()` -/
  | retry_unlock
  /-- the call has returned -/
  | returned
  deriving DecidableEq, Repr

/-- The state of the two threads and the two mutexes: who holds each mutex and
where each thread stands. -/
structure Race where
  ownerA : Option Tid
  ownerB : Option Tid
  pc1 : Pc
  pc2 : Pc
  deriving DecidableEq, Repr

/-- The first argument `a` of a thread's call: `A` for `t1`, `B` for `t2`. -/
def Tid.first : Tid → Mtx
  | Tid.t1 => Mtx.A
  | Tid.t2 => Mtx.B

/-- The second argument `b` of a thread's call: `B` for `t1`, `A` for `t2`. -/
def Tid.second : Tid → Mtx
  | Tid.t1 => Mtx.B
  | Tid.t2 => Mtx.A

/-- The thread that holds a mutex, if any. -/
def Race.owner (s : Race) : Mtx → Option Tid
  | Mtx.A => s.ownerA
  | Mtx.B => s.ownerB

/-- The point a thread has reached. -/
def Race.pc (s : Race) : Tid → Pc
  | Tid.t1 => s.pc1
  | Tid.t2 => s.pc2

/-- The state with a new holder of one mutex. -/
def Race.setOwner (s : Race) (x : Mtx) (o : Option Tid) : Race :=
  match x with
  | Mtx.A => { s with ownerA := o }
  | Mtx.B => { s with ownerB := o }

/-- The state with one thread at a new point. -/
def Race.setPc (s : Race) (t : Tid) (p : Pc) : Race :=
  match t with
  | Tid.t1 => { s with pc1 := p }
  | Tid.t2 => { s with pc2 := p }

/-- Both mutexes free, both threads at the start of their call. -/
def Race.init : Race :=
  { ownerA := none, ownerB := none, pc1 := Pc.lock_first, pc2 := Pc.lock_first }

/-- Modelled from the spec: the kernel's `mutexLock` called by thread `t` on
the mutex `x` ("at most one thread holds it locked at any instant"; `lock`
"blocks until acquired"): the call gives `x` to `t` while nobody holds it, and
`none` says that the call cannot return yet. -/
def Race.mutexLock (s : Race) (x : Mtx) (t : Tid) : Option Race :=
  if s.owner x = none then some (s.setOwner x (some t)) else none

/-- Modelled from the spec: the kernel's `mutexTryLock` called by thread `t` on
the mutex `x` ("non-blocking, returns whether acquired"): it gives `x` to `t`
and returns true while nobody holds it, and returns false otherwise. -/
def Race.mutexTryLock (s : Race) (x : Mtx) (t : Tid) : Bool × Race :=
  if s.owner x = none then (true, s.setOwner x (some t)) else (false, s)

/-- Modelled from the spec: the kernel's `mutexUnlock` on the mutex `x`
("releases"): nobody holds `x` afterwards. -/
def Race.mutexUnlock (s : Race) (x : Mtx) : Race :=
  s.setOwner x none

/-- One step of thread `t` in its call `lock(a, b)`: the mutex call at the
point where it stands, and the point it reaches; `none` says that the thread
cannot step (its `a.lock()` cannot return yet, or the call has returned). -/
def Race.step (s : Race) (t : Tid) : Option Race :=
  match s.pc t with
  | Pc.lock_first => (s.mutexLock t.first t).map (fun s1 => s1.setPc t Pc.try_second)
  | Pc.try_second =>
    let r := s.mutexTryLock t.second t
    some (r.2.setPc t (if r.1 then Pc.return_unlock else Pc.retry_unlock))
  | Pc.return_unlock => some ((s.mutexUnlock t.first).setPc t Pc.returned)
  | Pc.retry_unlock => some ((s.mutexUnlock t.first).setPc t Pc.lock_first)
  | Pc.returned => none

/-- The states the two threads can reach from `Race.init`, in any
interleaving of their steps. -/
inductive Race.Reach : Race → Prop where
  | init : Race.Reach Race.init
  | step (s s' : Race) (t : Tid) : Race.Reach s → s.step t = some s' → Race.Reach s'

/-- Thread `t` is blocked in `a.lock()` on a mutex that thread `u` holds. -/
def Race.blockedBy (s : Race) (t u : Tid) : Prop :=
  s.pc t = Pc.lock_first ∧ s.owner t.first = some u

/-- What a thread holds at each point at most: nothing before `a.lock()`, not
`b` before and after a failed `b.try_lock()`, not `a` once it has returned. -/
def Race.holdsAtMost (s : Race) (t : Tid) : Bool :=
  match s.pc t with
  | Pc.lock_first => decide (s.owner t.first ≠ some t) && decide (s.owner t.second ≠ some t)
  | Pc.try_second => decide (s.owner t.second ≠ some t)
  | Pc.return_unlock => true
  | Pc.retry_unlock => decide (s.owner t.second ≠ some t)
  | Pc.returned => decide (s.owner t.first ≠ some t)

/-! ## Concrete environments -/

/-- An environment in which every `try_lock` succeeds (all lockables free). -/
def envAllFree : Env :=
  { tryOk := fun _ => true, waitRes := fun _ => 0, predVal := fun _ => true, clock := fun _ => 0 }

/-- An environment in which only the first `try_lock` succeeds (the lockable
tried first is free, the next one is held by another thread). -/
def envSecondBusy : Env :=
  { tryOk := fun k => k == 0, waitRes := fun _ => 0, predVal := fun _ => true, clock := fun _ => 0 }

/-- A kernel whose priority query and `threadCreate` succeed and whose
`threadStart` fails with code 1; `new Thread` gives the address 4096. -/
def kernelStartFails : Kernel :=
  { getPriorityRes := 0, priority := 44, newThread := 4096, createRes := 0, startRes := 1,
    waitForExitRes := 0 }

/-- A kernel in which every call succeeds; `new Thread` gives the address 4096. -/
def kernelAllOk : Kernel :=
  { getPriorityRes := 0, priority := 44, newThread := 4096, createRes := 0, startRes := 0,
    waitForExitRes := 0 }

/-- An environment in which the third `try_lock` fails and every other one
succeeds. -/
def envThirdTryFails : Env :=
  { tryOk := fun i => i != 2, waitRes := fun _ => 0, predVal := fun _ => true,
    clock := fun _ => 0 }

/-- An environment whose clock stands at 1, in which the predicate is always
false and every timed wait returns the timeout sentinel. -/
def envClockOne : Env :=
  { tryOk := fun _ => true, waitRes := fun _ => 0xEA01, predVal := fun _ => false,
    clock := fun _ => 1 }

/-- The end of a first thread with the identity 4096: from the empty map, its
callable registers one lock owning mutex 3 (condition variable 1) and returns. -/
def firstExit : Outcome Unit × Registry × World :=
  thread_entry { handle_ := 4096 } (register_all { handle_ := 4096 } [(1, 3)])
    Registry.init World.init

/-- The end of a second thread with the same identity 4096, started after the
first has ended: from the map and the world the first left, its callable
registers one lock owning mutex 5 (condition variable 2) and returns. -/
def secondExit : Outcome Unit × Registry × World :=
  thread_entry { handle_ := 4096 } (register_all { handle_ := 4096 } [(2, 5)])
    firstExit.2.1 firstExit.2.2

/-- An environment whose clock reads 0, 10, 20, ... and in which the first
timed wait returns the timeout sentinel and every later one the success code. -/
def envSecondWaitWakes : Env :=
  { tryOk := fun _ => true, waitRes := fun k => if k = 0 then 0xEA01 else 0,
    predVal := fun _ => false, clock := fun k => 10 * (k : Int) }

/-! ## Theorems -/

/-- Every call of the multi-lock `lock(a, b, ...)` that returns has made
`a.unlock()` as its last call on a mutex. -/
theorem lock_last_call_unlocks_first (env : Env) (a b : Nat) (cde : List Nat) :
    ∀ (fuel : Nat) (w w' : World), lock env fuel a b cde w = some w' →
      ∃ l, w'.log = l ++ [Event.mutexUnlock a] := by
  intro fuel
  induction fuel with
  | zero => intro w w' h; simp [lock] at h
  | succ fuel ih =>
    intro w w' h
    unfold lock at h
    by_cases hr : (_lock_impl_helper env 0 b cde (lock_guard.ctor a w)).1 = -1
    · simp only [hr, if_true, Option.some.injEq] at h
      exact ⟨_, by rw [← h]; rfl⟩
    · simp only [hr, if_false] at h
      exact ih _ _ h

/-- C1 (fails on the code): `lock(a, b)` on two free mutexes `a = 0`, `b = 1`
returns after the calls `a.lock()`, `b.try_lock()` (true), `a.unlock()`: at the
moment of return `b` is held once and the first resource `a` is not held. -/
theorem lock_returns_with_first_released :
    (lock envAllFree 1 0 1 [] World.init).map (fun w => (w.held 0, w.held 1, w.log))
      = some (0, 1, [Event.mutexLock 0, Event.mutexTryLock 1 true, Event.mutexUnlock 0]) := by
  decide

/-- C2 (fails on the code): `try_lock(m0, m1)` with `m0 = 0` free and `m1 = 1`
busy makes the calls `m0.try_lock()` (true), `m1.try_lock()` (false) and returns
0, not the position 1 of the resource whose `try_lock` failed. -/
theorem try_lock_second_fails_returns_zero :
    (try_lock envSecondBusy 0 1 [] World.init).1 = 0 ∧
    (try_lock envSecondBusy 0 1 [] World.init).2.log
      = [Event.mutexTryLock 0 true, Event.mutexTryLock 1 false] := by
  decide

/-- C3 (fails on the code): `try_lock(m0, m1)` with `m0 = 0` free and `m1 = 1`
busy returns the failure index 0 without any `unlock`: `m0`, not held before the
call, is still held by the caller at return. -/
theorem try_lock_failure_keeps_first_locked :
    0 ≤ (try_lock envSecondBusy 0 1 [] World.init).1 ∧
    World.init.held 0 = 0 ∧
    (try_lock envSecondBusy 0 1 [] World.init).2.held 0 = 1 ∧
    Event.mutexUnlock 0 ∉ (try_lock envSecondBusy 0 1 [] World.init).2.log := by
  decide

/-- Every producible `unique_lock` that owns has a mutex: `owns` is only set
where `pm` was just set to, or found to be, the address of a mutex. -/
theorem Reachable.owns_has_mutex {u : unique_lock} (h : Reachable u) :
    u.owns = true → u.pm ≠ none := by
  induction h with
  | ctor_default => simp [unique_lock.ctor_default]
  | ctor_lock m w => simp [unique_lock.ctor_lock]
  | ctor_defer m => simp [unique_lock.ctor_defer]
  | ctor_try env m w => simp [unique_lock.ctor_try]
  | ctor_adopt m => simp [unique_lock.ctor_adopt]
  | ctor_move_new u _ ih => simpa [unique_lock.ctor_move] using ih
  | ctor_move_old u _ _ => simp [unique_lock.ctor_move]
  | assign_move_self a b _ _ _ ihb => simpa using ihb
  | assign_move_other a b _ _ _ _ => simp
  | lock u w _ ih =>
    obtain ⟨p, o⟩ := u
    cases o <;> cases p <;> simp_all [unique_lock.lock]
  | try_lock env u w _ ih =>
    obtain ⟨p, o⟩ := u
    cases o <;> cases p <;> simp_all [unique_lock.try_lock]
  | unlock u w _ ih =>
    obtain ⟨p, o⟩ := u
    cases o <;> cases p <;> simp_all [unique_lock.unlock]
  | swap_self a b _ _ _ ihb => simpa using ihb
  | swap_other a b _ _ iha _ => simpa using iha
  | release u _ _ => simp [unique_lock.release]

/-- C4: `unique_lock::lock()` and `unique_lock::try_lock()`, in every state and
world.  Without a mutex both raise `operation_not_permitted`; with a mutex and
`owns` set both raise `resource_deadlock_would_occur`; in both cases the object
and the world (so the log of mutex calls) are as before.  With a mutex `m` and
`owns` clear, `lock()` makes the one call `m.lock()` and sets `owns`, and
`try_lock()` makes the one call `m.try_lock()`, stores its result in `owns` and
returns it. -/
theorem unique_lock_lock_try_lock_contract (env : Env) (u : unique_lock) (w : World) :
    (u.pm = none →
      u.lock w = { out := Outcome.raise errc.operation_not_permitted, self := u, world := w } ∧
      u.try_lock env w
        = { out := Outcome.raise errc.operation_not_permitted, self := u, world := w }) ∧
    (u.pm ≠ none → u.owns = true →
      u.lock w
        = { out := Outcome.raise errc.resource_deadlock_would_occur, self := u, world := w } ∧
      u.try_lock env w
        = { out := Outcome.raise errc.resource_deadlock_would_occur, self := u, world := w }) ∧
    (∀ m, u.pm = some m → u.owns = false →
      (u.lock w).out = Outcome.ret () ∧
      (u.lock w).self = { pm := some m, owns := true } ∧
      (u.lock w).world = mutex.lock m w ∧
      (u.lock w).world.log = w.log ++ [Event.mutexLock m] ∧
      (u.try_lock env w).out = Outcome.ret (env.tryOk w.nTry) ∧
      (u.try_lock env w).self = { pm := some m, owns := env.tryOk w.nTry } ∧
      (u.try_lock env w).world = (mutex.try_lock env m w).2 ∧
      (u.try_lock env w).world.log = w.log ++ [Event.mutexTryLock m (env.tryOk w.nTry)]) := by
  obtain ⟨p, o⟩ := u
  refine ⟨?_, ?_, ?_⟩
  · rintro rfl
    simp [unique_lock.lock, unique_lock.try_lock]
  · intro hp ho
    cases p with
    | none => exact absurd rfl hp
    | some m =>
      simp only at ho
      subst ho
      simp [unique_lock.lock, unique_lock.try_lock]
  · intro m hp ho
    simp only at hp ho
    subst hp ho
    simp [unique_lock.lock, unique_lock.try_lock, mutex.lock, mutex.try_lock]

/-- C4 at concrete states: a deferred lock on mutex 3 whose `try_lock()` the
environment lets succeed, and an adopting lock on mutex 3 that already owns. -/
theorem unique_lock_lock_try_lock_contract_witness :
    ((unique_lock.ctor_defer 3).lock World.init).self = { pm := some 3, owns := true } ∧
    ((unique_lock.ctor_defer 3).lock World.init).world.log = [Event.mutexLock 3] ∧
    ((unique_lock.ctor_defer 3).try_lock envAllFree World.init).out = Outcome.ret true ∧
    (unique_lock.ctor_adopt 3).lock World.init
      = { out := Outcome.raise errc.resource_deadlock_would_occur,
          self := unique_lock.ctor_adopt 3, world := World.init } := by
  have h := unique_lock_lock_try_lock_contract envAllFree (unique_lock.ctor_defer 3) World.init
  have h3 := h.2.2 3 rfl rfl
  have k := unique_lock_lock_try_lock_contract envAllFree (unique_lock.ctor_adopt 3) World.init
  have k2 := k.2.1 (by simp [unique_lock.ctor_adopt]) rfl
  exact ⟨h3.2.1, h3.2.2.2.1, h3.2.2.2.2.1, k2.1⟩

/-- C5: `unique_lock::unlock()` on a producible `unique_lock`, in every world.
It raises `operation_not_permitted` exactly when `owns` is clear, and then the
object and the world (so the log of mutex calls) are as before.  When `owns` is
set there is a mutex `m`, the call returns, the one mutex call made is
`m.unlock()`, `owns` is clear afterwards and `pm` is still `m`. -/
theorem unique_lock_unlock_contract (u : unique_lock) (w : World) (h : Reachable u) :
    ((u.unlock w).out = Outcome.raise errc.operation_not_permitted ↔ u.owns = false) ∧
    (u.owns = false → (u.unlock w).self = u ∧ (u.unlock w).world = w) ∧
    (u.owns = true → ∃ m, u.pm = some m ∧
      (u.unlock w).out = Outcome.ret () ∧
      (u.unlock w).world = mutex.unlock m w ∧
      (u.unlock w).world.log = w.log ++ [Event.mutexUnlock m] ∧
      (u.unlock w).self = { pm := some m, owns := false }) := by
  have inv := h.owns_has_mutex
  obtain ⟨p, o⟩ := u
  cases o with
  | false => simp [unique_lock.unlock]
  | true =>
    cases p with
    | none => simp at inv
    | some m => simp [unique_lock.unlock, mutex.unlock]

/-- C5 at a concrete producible state: the lock built by `unique_lock(m)` on
mutex 3 owns it, and `unlock()` makes the single call `m.unlock()`. -/
theorem unique_lock_unlock_contract_witness :
    Reachable (unique_lock.ctor_lock 3 World.init).1 ∧
    ∃ m, (unique_lock.ctor_lock 3 World.init).1.pm = some m ∧
      ((unique_lock.ctor_lock 3 World.init).1.unlock World.init).out = Outcome.ret () ∧
      ((unique_lock.ctor_lock 3 World.init).1.unlock World.init).world
        = mutex.unlock m World.init ∧
      ((unique_lock.ctor_lock 3 World.init).1.unlock World.init).world.log
        = World.init.log ++ [Event.mutexUnlock m] ∧
      ((unique_lock.ctor_lock 3 World.init).1.unlock World.init).self
        = { pm := some m, owns := false } :=
  ⟨Reachable.ctor_lock 3 World.init,
   (unique_lock_unlock_contract (unique_lock.ctor_lock 3 World.init).1 World.init
      (Reachable.ctor_lock 3 World.init)).2.2 rfl⟩

/-- The move constructor gives the new object the pair `(pm, owns)` of `u` and
leaves `u` with a null `pm` and `owns` clear; it touches the two fields only
and calls nothing. -/
theorem unique_lock_ctor_move_spec (u : unique_lock) :
    (unique_lock.ctor_move u).1 = u ∧
    (unique_lock.ctor_move u).2 = { pm := none, owns := false } := by
  simp [unique_lock.ctor_move]

/-- C6 (fails on the code): for the identities `a` with handle 4096 and `b` with
handle 8192, `a < b` is true, `a == b` is false and `a <= b` is false.  The operators `==`, `!=`, `<`,
`>` and `>=` all agree with the order of the handles, and `<=` computes `>=`. -/
theorem thread_id_le_is_reversed :
    thread.id.operator_lt { handle_ := 4096 } { handle_ := 8192 } = true ∧
    thread.id.operator_eq { handle_ := 4096 } { handle_ := 8192 } = false ∧
    thread.id.operator_le { handle_ := 4096 } { handle_ := 8192 } = false ∧
    (∀ a b : thread.id,
      (thread.id.operator_eq a b = true ↔ a.handle_ = b.handle_) ∧
      (thread.id.operator_ne a b = true ↔ a.handle_ ≠ b.handle_) ∧
      (thread.id.operator_lt a b = true ↔ a.handle_ < b.handle_) ∧
      (thread.id.operator_gt a b = true ↔ a.handle_ > b.handle_) ∧
      (thread.id.operator_ge a b = true ↔ a.handle_ ≥ b.handle_) ∧
      (thread.id.operator_le a b = true ↔ a.handle_ ≥ b.handle_)) := by
  refine ⟨by decide, by decide, by decide, ?_⟩
  intro a b
  simp [thread.id.operator_eq, thread.id.operator_ne, thread.id.operator_lt,
    thread.id.operator_gt, thread.id.operator_ge, thread.id.operator_le]

/-- C8: `wait_for(lock, rel_time)` on a lock with a mutex `m`, for every result
code `r` the kernel's timed wait returns.  The one kernel call made is that
timed wait on `m`; the call returns `no_timeout` exactly when `r` is 0, returns
`timeout` exactly when `r` is `0xEA01`, and raises
`resource_unavailable_try_again` exactly when `r` is neither. -/
theorem wait_for_maps_result_code (env : Env) (lock : unique_lock) (m : Nat) (rel_time : Int)
    (w : World) (hm : lock.pm = some m) :
    (condition_variable.wait_for env lock rel_time w).2.log
      = w.log ++ [Event.condvarWaitTimeout m (rel_time % 2 ^ 64).toNat (env.waitRes w.nWait)] ∧
    ((condition_variable.wait_for env lock rel_time w).1 = Outcome.ret cv_status.no_timeout
      ↔ env.waitRes w.nWait = 0) ∧
    ((condition_variable.wait_for env lock rel_time w).1 = Outcome.ret cv_status.timeout
      ↔ env.waitRes w.nWait = 0xEA01) ∧
    ((condition_variable.wait_for env lock rel_time w).1
        = Outcome.raise errc.resource_unavailable_try_again
      ↔ (env.waitRes w.nWait ≠ 0 ∧ env.waitRes w.nWait ≠ 0xEA01)) := by
  have hr : condition_variable.wait_for env lock rel_time w
      = (condition_variable._handle_result (env.waitRes w.nWait),
         (condvarWaitTimeout env m (rel_time % 2 ^ 64).toNat w).2) := by
    simp [condition_variable.wait_for, hm, condvarWaitTimeout]
  rw [hr]
  refine ⟨by simp [condvarWaitTimeout], ?_, ?_, ?_⟩ <;>
    by_cases h0 : env.waitRes w.nWait = 0 <;>
    by_cases h1 : env.waitRes w.nWait = 0xEA01 <;>
    simp [condition_variable._handle_result, R_SUCCEEDED, h0, h1]

/-- C8 at a concrete input: a timed wait of 10 ns on mutex 7 for which the kernel
returns `0xEA01` returns `timeout`. -/
theorem wait_for_maps_result_code_witness :
    (unique_lock.ctor_adopt 7).pm = some 7 ∧
    (condition_variable.wait_for envTimeout (unique_lock.ctor_adopt 7) 10 World.init).1
      = Outcome.ret cv_status.timeout :=
  ⟨rfl, (wait_for_maps_result_code envTimeout (unique_lock.ctor_adopt 7) 7 10 World.init
    rfl).2.2.1.mpr rfl⟩

/-- A run of `wait(lock, pred)` that returns has made `n` rounds, each a false
evaluation of the predicate followed by a successful `condvarWait`, and then
one true evaluation. -/
theorem wait_pred_shape (env : Env) (lock : unique_lock) (m : Nat) (hm : lock.pm = some m) :
    ∀ (fuel : Nat) (w w' : World),
      condition_variable.wait_pred env lock fuel w = some (Outcome.ret (), w') →
      ∃ n, w'.log = w.log ++ waitRounds m n ++ [Event.pred true] ∧
        w'.nPred = w.nPred + n + 1 ∧ w'.nWait = w.nWait + n ∧
        (∀ i, i < n → env.predVal (w.nPred + i) = false) ∧
        env.predVal (w.nPred + n) = true := by
  intro fuel
  induction fuel with
  | zero => intro w w' h; simp [condition_variable.wait_pred] at h
  | succ fuel ih =>
    intro w w' h
    by_cases hp : env.predVal w.nPred = true
    · simp [condition_variable.wait_pred, call_pred, hp] at h
      subst h
      exact ⟨0, by simp [waitRounds], rfl, rfl, by simp, by simpa using hp⟩
    · have hp' : env.predVal w.nPred = false := by simpa using hp
      by_cases hr : env.waitRes w.nWait = 0
      · simp [condition_variable.wait_pred, call_pred, hp', condition_variable.wait, hm,
          condvarWait, R_FAILED, hr] at h
        obtain ⟨n, hlog, hnp, hnw, hfalse, htrue⟩ := ih _ _ h
        refine ⟨n + 1, ?_, ?_, ?_, ?_, ?_⟩
        · simpa [waitRounds] using hlog
        · simp at hnp; omega
        · simp at hnw; omega
        · intro i hi
          cases i with
          | zero => simpa using hp'
          | succ j =>
            have := hfalse j (by omega)
            simp at this
            rw [← this]; congr 1; omega
        · simp at htrue
          rw [← htrue]; congr 1; omega
      · simp [condition_variable.wait_pred, call_pred, hp', condition_variable.wait, hm,
          condvarWait, R_FAILED, hr] at h

/-- When the predicate is false `n` times and then true, and the first `n`
waits succeed, `wait(lock, pred)` returns with any fuel above `n`. -/
theorem wait_pred_total (env : Env) (lock : unique_lock) (m : Nat) (hm : lock.pm = some m) :
    ∀ (n fuel : Nat) (w : World),
      (∀ i, i < n → env.predVal (w.nPred + i) = false ∧ env.waitRes (w.nWait + i) = 0) →
      env.predVal (w.nPred + n) = true →
      ∃ w', condition_variable.wait_pred env lock (n + fuel + 1) w = some (Outcome.ret (), w') := by
  intro n
  induction n with
  | zero =>
    intro fuel w _ ht
    simp at ht
    exact ⟨(call_pred env w).2, by simp [condition_variable.wait_pred, call_pred, ht]⟩
  | succ n ih =>
    intro fuel w hf ht
    have h0 := hf 0 (by omega)
    simp at h0
    have hstep : condition_variable.wait_pred env lock (n + 1 + fuel + 1) w
        = condition_variable.wait_pred env lock (n + fuel + 1)
            (condvarWait env m (call_pred env w).2).2 := by
      have e : n + 1 + fuel + 1 = (n + fuel + 1) + 1 := by omega
      rw [e]
      simp [condition_variable.wait_pred, call_pred, h0.1, condition_variable.wait, hm,
        condvarWait, R_FAILED, h0.2]
    rw [hstep]
    apply ih
    · intro i hi
      have := hf (i + 1) (by omega)
      simp [condvarWait, call_pred]
      constructor
      · rw [← this.1]; congr 1; omega
      · rw [← this.2]; congr 1; omega
    · simp [condvarWait, call_pred]
      rw [← ht]; congr 1; omega

/-- C10: `wait(lock, pred)` on a lock with a mutex `m`, for every environment.
If the first evaluation of the predicate is true the call returns after that
evaluation alone, without a wait.  Every run that returns has made, for some
`n`, exactly the calls of `n` rounds (predicate false, then one `condvarWait` on
`m`) followed by one evaluation that was true; it made `n` waits for the `n`
false evaluations.  And it does return when the predicate is false `n` times
and then true while those `n` waits succeed. -/
theorem wait_pred_returns_after_true (env : Env) (lock : unique_lock) (m : Nat)
    (hm : lock.pm = some m) (fuel : Nat) (w : World) :
    (env.predVal w.nPred = true →
      condition_variable.wait_pred env lock (fuel + 1) w
        = some (Outcome.ret (), (call_pred env w).2) ∧
      (call_pred env w).2.log = w.log ++ [Event.pred true] ∧
      (call_pred env w).2.nWait = w.nWait) ∧
    (∀ w', condition_variable.wait_pred env lock fuel w = some (Outcome.ret (), w') →
      ∃ n, w'.log = w.log ++ waitRounds m n ++ [Event.pred true] ∧
        w'.nPred = w.nPred + n + 1 ∧ w'.nWait = w.nWait + n ∧
        (∀ i, i < n → env.predVal (w.nPred + i) = false) ∧
        env.predVal (w.nPred + n) = true) ∧
    (∀ n, (∀ i, i < n → env.predVal (w.nPred + i) = false ∧ env.waitRes (w.nWait + i) = 0) →
      env.predVal (w.nPred + n) = true →
      ∃ w', condition_variable.wait_pred env lock (n + fuel + 1) w
        = some (Outcome.ret (), w')) := by
  refine ⟨?_, ?_, ?_⟩
  · intro hp
    simp [condition_variable.wait_pred, call_pred, hp]
  · intro w' h
    exact wait_pred_shape env lock m hm fuel w w' h
  · intro n hf ht
    exact wait_pred_total env lock m hm n fuel w hf ht

/-- C10 at a concrete input: the predicate is false twice and then true; the
call on mutex 7 returns and its calls are two rounds and the true evaluation. -/
theorem wait_pred_returns_after_true_witness :
    (unique_lock.ctor_adopt 7).pm = some 7 ∧
    ∃ w', condition_variable.wait_pred envThirdTrue (unique_lock.ctor_adopt 7) 5 World.init
        = some (Outcome.ret (), w') ∧
      ∃ n, w'.log = World.init.log ++ waitRounds 7 n ++ [Event.pred true] ∧
        w'.nPred = World.init.nPred + n + 1 ∧ w'.nWait = World.init.nWait + n ∧
        (∀ i, i < n → envThirdTrue.predVal (World.init.nPred + i) = false) ∧
        envThirdTrue.predVal (World.init.nPred + n) = true :=
  ⟨rfl, _, rfl,
    (wait_pred_returns_after_true envThirdTrue (unique_lock.ctor_adopt 7) 7 rfl 5
      World.init).2.1 _ rfl⟩

/-- The timed wait `wait_for(lock, rel_time)` evaluates no predicate and only
appends to the log. -/
theorem wait_for_frame (env : Env) (lock : unique_lock) (rel_time : Int) (w : World) :
    (condition_variable.wait_for env lock rel_time w).2.nPred = w.nPred ∧
    ∃ l, (condition_variable.wait_for env lock rel_time w).2.log = w.log ++ l := by
  unfold condition_variable.wait_for
  cases lock.pm with
  | none => exact ⟨rfl, [], by simp⟩
  | some m => exact ⟨rfl, _, rfl⟩

/-- The loop of `wait_until(lock, atime)` evaluates no predicate and only
appends to the log. -/
theorem wait_until_loop_frame (env : Env) (lock : unique_lock) (atime : Int) :
    ∀ (fuel : Nat) (now : Int) (w : World) (o : Outcome cv_status) (w' : World),
      condition_variable.wait_until_loop env lock atime fuel now w = some (o, w') →
      w'.nPred = w.nPred ∧ ∃ l, w'.log = w.log ++ l := by
  intro fuel
  induction fuel with
  | zero => intro now w o w' h; simp [condition_variable.wait_until_loop] at h
  | succ fuel ih =>
    intro now w o w' h
    obtain ⟨hfp, lf, hfl⟩ := wait_for_frame env lock (atime - now) w
    unfold condition_variable.wait_until_loop at h
    by_cases hlt : now < atime
    · simp only [hlt, if_true] at h
      generalize hr : condition_variable.wait_for env lock (atime - now) w = r at h hfp hfl
      obtain ⟨ro, rw⟩ := r
      have hfp' : rw.nPred = w.nPred := hfp
      have hfl' : rw.log = w.log ++ lf := hfl
      cases ro with
      | ret st =>
        cases st with
        | no_timeout =>
          simp at h
          obtain ⟨_, rfl⟩ := h
          exact ⟨hfp, lf, hfl⟩
        | timeout =>
          simp only at h
          obtain ⟨hp, l, hl⟩ := ih _ _ _ _ h
          refine ⟨?_, lf ++ (Event.now (env.clock rw.nNow) :: l), ?_⟩
          · simp only [Clock.now] at hp
            rw [hp, hfp']
          · simp only [Clock.now] at hl
            rw [hl, hfl']
            simp
      | raise e =>
        simp at h
        obtain ⟨_, rfl⟩ := h
        exact ⟨hfp, lf, hfl⟩
      | undefined =>
        simp at h
        obtain ⟨_, rfl⟩ := h
        exact ⟨hfp, lf, hfl⟩
    · simp [hlt] at h
      obtain ⟨_, rfl⟩ := h
      exact ⟨rfl, [], by simp⟩

/-- The timed wait `wait_until(lock, atime)` evaluates no predicate and only
appends to the log. -/
theorem wait_until_frame (env : Env) (is_steady : Bool) (lock : unique_lock) (atime : Int)
    (fuel : Nat) (w : World) (o : Outcome cv_status) (w' : World)
    (h : condition_variable.wait_until env is_steady lock atime fuel w = some (o, w')) :
    w'.nPred = w.nPred ∧ ∃ l, w'.log = w.log ++ l := by
  unfold condition_variable.wait_until at h
  by_cases hc : (is_steady && decide ((Clock.now env w).1 < atime)) = true
  · simp only [hc, if_true] at h
    obtain ⟨hfp, lf, hfl⟩ :=
      wait_for_frame env lock (atime - (Clock.now env w).1) (Clock.now env w).2
    simp only [Option.some.injEq] at h
    rw [h] at hfp hfl
    exact ⟨by simpa [Clock.now] using hfp, Event.now (env.clock w.nNow) :: lf,
      by simpa [Clock.now] using hfl⟩
  · simp only [hc] at h
    obtain ⟨hp, l, hl⟩ := wait_until_loop_frame env lock atime _ _ _ _ _ h
    exact ⟨by simpa [Clock.now] using hp, Event.now (env.clock w.nNow) :: l,
      by simpa [Clock.now] using hl⟩

/-- A run of the predicate form of `wait_until` that returns `b` ends with an
evaluation of the predicate that gave `b`; when `b` is false, that evaluation
directly follows a timed wait that reported `timeout`. -/
theorem wait_until_pred_shape (env : Env) (is_steady : Bool) (lock : unique_lock)
    (abs_time : Int) :
    ∀ (fuel : Nat) (w : World) (b : Bool) (w' : World),
      condition_variable.wait_until_pred env is_steady lock abs_time fuel w
        = some (Outcome.ret b, w') →
      (∃ l, w'.log = w.log ++ l ++ [Event.pred b]) ∧
      w.nPred < w'.nPred ∧ env.predVal (w'.nPred - 1) = b ∧
      (b = false → ∃ f w1 w2 l, w1.log = w.log ++ l ∧
        condition_variable.wait_until env is_steady lock abs_time f w1
          = some (Outcome.ret cv_status.timeout, w2) ∧
        call_pred env w2 = (false, w')) := by
  intro fuel
  induction fuel with
  | zero => intro w b w' h; simp [condition_variable.wait_until_pred] at h
  | succ fuel ih =>
    intro w b w' h
    unfold condition_variable.wait_until_pred at h
    by_cases hp : env.predVal w.nPred = true
    · simp [call_pred, hp] at h
      obtain ⟨rfl, rfl⟩ := h
      exact ⟨⟨[], by simp⟩, by simp, by simpa using hp, by simp⟩
    · have hp' : env.predVal w.nPred = false := by simpa using hp
      have hcp : (call_pred env w).1 = false := by simpa [call_pred] using hp'
      simp only [hcp, Bool.not_false, if_true] at h
      generalize hr : condition_variable.wait_until env is_steady lock abs_time (fuel + 1)
        (call_pred env w).2 = r at h
      cases r with
      | none => simp at h
      | some r =>
        obtain ⟨ro, w2⟩ := r
        obtain ⟨hfp, lf, hfl⟩ := wait_until_frame env is_steady lock abs_time _ _ _ _ hr
        have hfp' : w2.nPred = w.nPred + 1 := by simpa [call_pred] using hfp
        have hfl' : w2.log = w.log ++ (Event.pred false :: lf) := by
          simpa [call_pred, hp'] using hfl
        cases ro with
        | ret st =>
          cases st with
          | timeout =>
            simp only [Option.some.injEq, Prod.mk.injEq, Outcome.ret.injEq] at h
            obtain ⟨hb, hw⟩ := h
            refine ⟨⟨Event.pred false :: lf, ?_⟩, ?_, ?_, ?_⟩
            · rw [← hw, ← hb]; simp [call_pred, hfl']
            · rw [← hw]; simp [call_pred, hfp']; omega
            · rw [← hw, ← hb]; simp [call_pred]
            · intro hbf
              refine ⟨fuel + 1, (call_pred env w).2, w2, [Event.pred false], ?_, hr, ?_⟩
              · simp [call_pred, hp']
              · rw [← hw, ← hbf, ← hb]
          | no_timeout =>
            simp only at h
            obtain ⟨⟨l, hl⟩, hlt, hv, hf⟩ := ih _ _ _ h
            refine ⟨⟨Event.pred false :: (lf ++ l), ?_⟩, by omega, hv, ?_⟩
            · rw [hl, hfl']; simp
            · intro hbf
              obtain ⟨f, w1, w3, l1, hl1, hwu, hcp1⟩ := hf hbf
              exact ⟨f, w1, w3, Event.pred false :: (lf ++ l1), by rw [hl1, hfl']; simp,
                hwu, hcp1⟩
        | raise e => simp at h
        | undefined => simp at h

/-- C9: the predicate forms `wait_until(lock, abs_time, pred)` (for a clock of
either kind) and `wait_for(lock, rel_time, pred)`, for every environment.  If
the first evaluation of the predicate is true the call returns true after it,
with no wait.  Every run that returns a value `b` ends with an evaluation of the
predicate, made in this call, whose value was `b`; and when `b` is false that
last evaluation directly follows a timed wait `wait_until(lock, abs_time)` of
this call that reported `timeout`.  Step by step: when the predicate is false
and the timed wait reports `timeout`, the call returns the value of the next
evaluation of the predicate; when the timed wait reports `no_timeout`, the call
goes on with the loop; and `wait_for` with a predicate is `wait_until` with a
predicate for the steady clock and the deadline `now() + rel_time`, a signed
64-bit sum. -/
theorem timed_wait_pred_returns_last_pred (env : Env) (is_steady : Bool) (lock : unique_lock)
    (abs_time rel_time : Int) (fuel : Nat) (w : World) :
    (env.predVal w.nPred = true →
      condition_variable.wait_until_pred env is_steady lock abs_time (fuel + 1) w
        = some (Outcome.ret true, (call_pred env w).2) ∧
      (call_pred env w).2.log = w.log ++ [Event.pred true] ∧
      (call_pred env w).2.nWait = w.nWait) ∧
    (∀ b w', condition_variable.wait_until_pred env is_steady lock abs_time fuel w
        = some (Outcome.ret b, w') →
      (∃ l, w'.log = w.log ++ l ++ [Event.pred b]) ∧
      w.nPred < w'.nPred ∧ env.predVal (w'.nPred - 1) = b ∧
      (b = false → ∃ f w1 w2 l, w1.log = w.log ++ l ∧
        condition_variable.wait_until env is_steady lock abs_time f w1
          = some (Outcome.ret cv_status.timeout, w2) ∧
        call_pred env w2 = (false, w'))) ∧
    (env.predVal w.nPred = true →
      condition_variable.wait_for_pred env lock rel_time (fuel + 1) w
        = some (Outcome.ret true, (call_pred env (Clock.now env w).2).2) ∧
      (call_pred env (Clock.now env w).2).2.log
        = w.log ++ [Event.now (env.clock w.nNow), Event.pred true] ∧
      (call_pred env (Clock.now env w).2).2.nWait = w.nWait) ∧
    (∀ b w', condition_variable.wait_for_pred env lock rel_time fuel w
        = some (Outcome.ret b, w') →
      (∃ l, w'.log = w.log ++ l ++ [Event.pred b]) ∧
      w.nPred < w'.nPred ∧ env.predVal (w'.nPred - 1) = b ∧
      (b = false → ∃ f w1 w2 l, w1.log = w.log ++ l ∧
        condition_variable.wait_until env true lock (int64 (env.clock w.nNow + rel_time)) f w1
          = some (Outcome.ret cv_status.timeout, w2) ∧
        call_pred env w2 = (false, w'))) ∧
    (env.predVal w.nPred = false → ∀ w2,
      condition_variable.wait_until env is_steady lock abs_time (fuel + 1) (call_pred env w).2
        = some (Outcome.ret cv_status.timeout, w2) →
      condition_variable.wait_until_pred env is_steady lock abs_time (fuel + 1) w
        = some (Outcome.ret (env.predVal w2.nPred), (call_pred env w2).2)) ∧
    (env.predVal w.nPred = false → ∀ w2,
      condition_variable.wait_until env is_steady lock abs_time (fuel + 1) (call_pred env w).2
        = some (Outcome.ret cv_status.no_timeout, w2) →
      condition_variable.wait_until_pred env is_steady lock abs_time (fuel + 1) w
        = condition_variable.wait_until_pred env is_steady lock abs_time fuel w2) ∧
    condition_variable.wait_for_pred env lock rel_time fuel w
      = condition_variable.wait_until_pred env true lock (int64 (env.clock w.nNow + rel_time))
          fuel (Clock.now env w).2 := by
  refine ⟨?_, ?_, ?_, ?_, ?_, ?_, rfl⟩
  · intro hp
    simp [condition_variable.wait_until_pred, call_pred, hp]
  · intro b w' h
    exact wait_until_pred_shape env is_steady lock abs_time fuel w b w' h
  · intro hp
    simp [condition_variable.wait_for_pred, condition_variable.wait_until_pred, call_pred,
      Clock.now, hp]
  · intro b w' h
    obtain ⟨⟨l, hl⟩, hlt, hv, hf⟩ :=
      wait_until_pred_shape env true lock (int64 (env.clock w.nNow + rel_time)) fuel
        (Clock.now env w).2 b w' h
    refine ⟨⟨Event.now (env.clock w.nNow) :: l, by simpa [Clock.now] using hl⟩,
      by simpa [Clock.now] using hlt, hv, ?_⟩
    intro hbf
    obtain ⟨f, w1, w2, l1, hl1, hwu, hcp⟩ := hf hbf
    exact ⟨f, w1, w2, Event.now (env.clock w.nNow) :: l1, by simpa [Clock.now] using hl1,
      hwu, hcp⟩
  · intro hp w2 hw
    have hcp : (call_pred env w).1 = false := by simpa [call_pred] using hp
    simp only [condition_variable.wait_until_pred, hcp, Bool.not_false, if_true, hw]
    simp [call_pred]
  · intro hp w2 hw
    have hcp : (call_pred env w).1 = false := by simpa [call_pred] using hp
    simp only [condition_variable.wait_until_pred, hcp, Bool.not_false, if_true, hw]

/-- C9 at two concrete inputs.  The predicate is always false and the timed
wait of 10 ns on mutex 7 times out: `wait_for(lock, 10ns, pred)` returns false,
its last call being an evaluation of the predicate that directly follows a
timed wait that reported `timeout`.  And with the clock at 1 and the duration
2^63 - 1 the deadline overflows to -2^63: the call returns false after two
evaluations of the predicate and no kernel wait. -/
theorem timed_wait_pred_returns_last_pred_witness :
    (∃ w', condition_variable.wait_for_pred envTimeout (unique_lock.ctor_adopt 7) 10 5 World.init
        = some (Outcome.ret false, w') ∧
      (∃ l, w'.log = World.init.log ++ l ++ [Event.pred false]) ∧
      World.init.nPred < w'.nPred ∧ envTimeout.predVal (w'.nPred - 1) = false ∧
      (false = false → ∃ f w1 w2 l, w1.log = World.init.log ++ l ∧
        condition_variable.wait_until envTimeout true (unique_lock.ctor_adopt 7)
            (int64 (envTimeout.clock World.init.nNow + 10)) f w1
          = some (Outcome.ret cv_status.timeout, w2) ∧
        call_pred envTimeout w2 = (false, w'))) ∧
    (condition_variable.wait_for_pred envClockOne (unique_lock.ctor_adopt 7) (2 ^ 63 - 1) 5
        World.init).map (fun r => (r.1, r.2.log))
      = some (Outcome.ret false,
          [Event.now 1, Event.pred false, Event.now 1, Event.pred false]) :=
  ⟨⟨_, rfl,
    (timed_wait_pred_returns_last_pred envTimeout true (unique_lock.ctor_adopt 7) 0 10 5
      World.init).2.2.2.1 false _ rfl⟩,
   by
    rw [(timed_wait_pred_returns_last_pred envClockOne true (unique_lock.ctor_adopt 7) 0
      (2 ^ 63 - 1) 5 World.init).2.2.2.2.2.2]
    decide⟩

/-- C11 (fails on the code): `detach()` on a default-constructed `thread`, whose
identity is the "no thread" identity, returns normally and has appended the
null handle to `detached_threads` (and registered the exit hook); the exit
hook then calls `threadPause` and `threadClose` on the null handle. -/
theorem detach_unstarted_appends_null_handle :
    thread.ctor_default.joinable = false ∧
    (thread.detach thread.ctor_default Globals.init).out = Outcome.ret () ∧
    Globals.init.detached_threads = [] ∧
    (thread.detach thread.ctor_default Globals.init).globals.detached_threads = [0] ∧
    (thread.detach thread.ctor_default Globals.init).globals.at_exit_registered = true ∧
    (free_detached_threads (thread.detach thread.ctor_default Globals.init).globals).klog
      = [KEvent.atexit_free_detached_threads, KEvent.threadPause 0, KEvent.threadClose 0] := by
  decide

/-- C12: `thread::_create_thread` on a `thread` with the "no thread" identity,
for every result code of the priority query, of `threadCreate` and of
`threadStart`, the allocated `Thread` having a non-null address `t`.  If one of
the three codes is not the success code the call raises
`resource_unavailable_try_again` and leaves the object not joinable; the calls
made are: the query alone when it failed; the query, `new`, `threadCreate` and
`delete` (no `threadClose`) when the creation failed; the query, `new`,
`threadCreate`, `threadStart`, one `threadClose` and `delete` when the start
failed.  If all three succeed the call returns, no `threadClose` is made, and
the object is joinable with the identity of `t`. -/
theorem create_thread_contract (k : Kernel) (self : thread) (g : Globals)
    (hs : self.id_ = thread.id.ctor_default) (ht : k.newThread ≠ 0) :
    ((k.getPriorityRes ≠ 0 ∨ k.createRes ≠ 0 ∨ k.startRes ≠ 0) →
      (thread._create_thread k self g).out = Outcome.raise errc.resource_unavailable_try_again ∧
      (thread._create_thread k self g).self = self ∧
      (thread._create_thread k self g).self.joinable = false) ∧
    (k.getPriorityRes ≠ 0 →
      (thread._create_thread k self g).globals.klog
        = g.klog ++ [KEvent.svcGetThreadPriority k.getPriorityRes]) ∧
    (k.getPriorityRes = 0 → k.createRes ≠ 0 →
      (thread._create_thread k self g).globals.klog
        = g.klog ++ [KEvent.svcGetThreadPriority 0, KEvent.new_Thread k.newThread,
            KEvent.threadCreate k.newThread ((k.priority + 2 ^ 32 - 1) % 2 ^ 32)
              (g.next_core % 3) k.createRes,
            KEvent.delete_Thread k.newThread]) ∧
    (k.getPriorityRes = 0 → k.createRes = 0 → k.startRes ≠ 0 →
      (thread._create_thread k self g).globals.klog
        = g.klog ++ [KEvent.svcGetThreadPriority 0, KEvent.new_Thread k.newThread,
            KEvent.threadCreate k.newThread ((k.priority + 2 ^ 32 - 1) % 2 ^ 32)
              (g.next_core % 3) 0,
            KEvent.threadStart k.newThread k.startRes,
            KEvent.threadClose k.newThread, KEvent.delete_Thread k.newThread]) ∧
    (k.getPriorityRes = 0 → k.createRes = 0 → k.startRes = 0 →
      (thread._create_thread k self g).out = Outcome.ret () ∧
      (thread._create_thread k self g).self.id_ = { handle_ := k.newThread } ∧
      (thread._create_thread k self g).self.joinable = true ∧
      (thread._create_thread k self g).globals.klog
        = g.klog ++ [KEvent.svcGetThreadPriority 0, KEvent.new_Thread k.newThread,
            KEvent.threadCreate k.newThread ((k.priority + 2 ^ 32 - 1) % 2 ^ 32)
              (g.next_core % 3) 0,
            KEvent.threadStart k.newThread 0]) := by
  have hj : self.joinable = false := by
    simp [thread.joinable, hs, thread.id.operator_eq]
  refine ⟨?_, ?_, ?_, ?_, ?_⟩
  · intro h
    by_cases h1 : k.getPriorityRes = 0 <;> by_cases h2 : k.createRes = 0 <;>
      by_cases h3 : k.startRes = 0 <;>
      simp_all [thread._create_thread, R_SUCCEEDED]
  · intro h1
    simp [thread._create_thread, R_SUCCEEDED, h1]
  · intro h1 h2
    simp [thread._create_thread, R_SUCCEEDED, h1, h2]
  · intro h1 h2 h3
    simp [thread._create_thread, R_SUCCEEDED, h1, h2, h3]
  · intro h1 h2 h3
    simp [thread._create_thread, R_SUCCEEDED, h1, h2, h3, thread.joinable,
      thread.id.operator_eq, thread.id.ctor_default, ht]

/-- C12 at a concrete input: the creation succeeds and the start fails; the
created thread object is closed once and the construction raises. -/
theorem create_thread_contract_witness :
    (thread._create_thread kernelStartFails thread.ctor_default Globals.init).out
      = Outcome.raise errc.resource_unavailable_try_again ∧
    (thread._create_thread kernelStartFails thread.ctor_default Globals.init).globals.klog
      = Globals.init.klog ++ [KEvent.svcGetThreadPriority 0, KEvent.new_Thread 4096,
          KEvent.threadCreate 4096 ((44 + 2 ^ 32 - 1) % 2 ^ 32) (0 % 3) 0,
          KEvent.threadStart 4096 1, KEvent.threadClose 4096, KEvent.delete_Thread 4096] := by
  have h := create_thread_contract kernelStartFails thread.ctor_default Globals.init rfl
    (by decide)
  exact ⟨(h.1 (Or.inr (Or.inr (by decide)))).1, h.2.2.2.1 rfl rfl (by decide)⟩

/-- C14: `unique_lock::release()` in every state.  It returns the `pm` the
lock had, leaves the lock with a null `pm` and `owns` clear, and takes no
world, so it makes no call on the mutex; the destructor of the lock it leaves
behind returns without a call on any mutex, in every world. -/
theorem unique_lock_release_contract (u : unique_lock) (w : World) :
    (unique_lock.release u).1 = u.pm ∧
    (unique_lock.release u).2 = { pm := none, owns := false } ∧
    unique_lock.dtor (unique_lock.release u).2 w = (Outcome.ret (), w) := by
  simp [unique_lock.release, unique_lock.dtor]

/-- C15: `thread::join()`, for every result code of `threadWaitForExit`.  On a
`thread` that is not joinable it returns and changes neither the object nor the
log of kernel calls.  On a joinable `thread` with handle `h`: if the kernel
wait succeeds, the calls made are the wait, one `threadClose(h)` and the
`delete`, the identity is reset, `joinable()` is false and a second `join()` is
a call that changes nothing; if the kernel wait fails, the call raises
`resource_unavailable_try_again` after the wait alone and the object is as
before, still joinable. -/
theorem thread_join_contract (k k2 : Kernel) (self : thread) (g : Globals) :
    (self.joinable = false →
      thread.join k self g = { out := Outcome.ret (), self := self, globals := g }) ∧
    (self.joinable = true → k.waitForExitRes = 0 →
      (thread.join k self g).out = Outcome.ret () ∧
      (thread.join k self g).globals.klog
        = g.klog ++ [KEvent.threadWaitForExit self.id_.handle_ 0,
            KEvent.threadClose self.id_.handle_, KEvent.delete_Thread self.id_.handle_] ∧
      (thread.join k self g).self.id_ = thread.id.ctor_default ∧
      (thread.join k self g).self.joinable = false ∧
      thread.join k2 (thread.join k self g).self (thread.join k self g).globals
        = { out := Outcome.ret (), self := (thread.join k self g).self,
            globals := (thread.join k self g).globals }) ∧
    (self.joinable = true → k.waitForExitRes ≠ 0 →
      (thread.join k self g).out = Outcome.raise errc.resource_unavailable_try_again ∧
      (thread.join k self g).globals.klog
        = g.klog ++ [KEvent.threadWaitForExit self.id_.handle_ k.waitForExitRes] ∧
      (thread.join k self g).self = self ∧
      (thread.join k self g).self.joinable = true) := by
  refine ⟨?_, ?_, ?_⟩
  · intro hj
    simp [thread.join, hj]
  · intro hj hr
    have hd : thread.joinable { id_ := thread.id.ctor_default } = false := by
      simp [thread.joinable, thread.id.operator_eq]
    simp [thread.join, hj, hr, R_SUCCEEDED, hd]
  · intro hj hr
    simp [thread.join, hj, hr, R_SUCCEEDED]

/-- C15 at a concrete input: a `thread` with handle 4096 is joined with a
successful kernel wait; it is closed once and is not joinable afterwards. -/
theorem thread_join_contract_witness :
    (thread.join kernelAllOk { id_ := { handle_ := 4096 } } Globals.init).globals.klog
      = Globals.init.klog ++ [KEvent.threadWaitForExit 4096 0, KEvent.threadClose 4096,
          KEvent.delete_Thread 4096] ∧
    (thread.join kernelAllOk { id_ := { handle_ := 4096 } } Globals.init).self.joinable
      = false := by
  have h := (thread_join_contract kernelAllOk kernelAllOk { id_ := { handle_ := 4096 } }
    Globals.init).2.1 (by decide) rfl
  exact ⟨h.2.1, h.2.2.2.1⟩

/-- C19: every `unique_lock` that the constructors, `lock`, `try_lock`,
`unlock`, `release`, `swap`, move construction and move assignment can produce
has a mutex whenever it owns.  Hence its destructor and its `unlock()` never
dereference a null pointer, and when it owns, `unlock()` does call the `unlock`
of its mutex and clears `owns`. -/
theorem unique_lock_owns_implies_mutex (u : unique_lock) (w : World) (h : Reachable u) :
    (u.owns = true → u.pm ≠ none) ∧
    (unique_lock.dtor u w).1 = Outcome.ret () ∧
    (u.unlock w).out ≠ Outcome.undefined ∧
    (u.owns = true → ∃ m, u.pm = some m ∧
      (u.unlock w).world = mutex.unlock m w ∧ (u.unlock w).self.owns = false) := by
  have inv := h.owns_has_mutex
  obtain ⟨p, o⟩ := u
  cases o with
  | false => simp [unique_lock.dtor, unique_lock.unlock]
  | true =>
    cases p with
    | none => simp at inv
    | some m => simp [unique_lock.dtor, unique_lock.unlock]

/-- C19 at a concrete producible state: a lock built with `try_to_lock` on
mutex 3, which the environment lets succeed, and then moved. -/
theorem unique_lock_owns_implies_mutex_witness :
    Reachable (unique_lock.ctor_move (unique_lock.ctor_try envAllFree 3 World.init).1).1 ∧
    (unique_lock.ctor_move (unique_lock.ctor_try envAllFree 3 World.init).1).1.owns = true ∧
    (unique_lock.ctor_move (unique_lock.ctor_try envAllFree 3 World.init).1).1.pm ≠ none :=
  ⟨Reachable.ctor_move_new _ (Reachable.ctor_try envAllFree 3 World.init), rfl,
    (unique_lock_owns_implies_mutex _ World.init
      (Reachable.ctor_move_new _ (Reachable.ctor_try envAllFree 3 World.init))).1 rfl⟩

/-- One registration with any lock appends the pair with the lock's `pm` and
`owns`, empties the caller's lock and leaves the world as it was. -/
theorem notify_all_at_thread_exit_spec (self : thread.id) (cond : Nat) (arg : unique_lock)
    (reg : Registry) (w : World) :
    notify_all_at_thread_exit self cond arg reg w
      = { out := Outcome.ret (), arg := { pm := none, owns := false },
          registry := fun i => if i = self then reg i ++ [(cond, arg)] else reg i,
          world := w } := by
  obtain ⟨p, o⟩ := arg
  simp [notify_all_at_thread_exit, unique_lock.ctor_move, unique_lock.dtor]

/-- The registrations of `register_all` append the owning locks, in order, to
the entry of `self` and leave the other entries and the world as they were. -/
theorem register_all_spec (self : thread.id) :
    ∀ (items : List (Nat × Nat)) (reg : Registry) (w : World),
      register_all self items (reg, w)
        = (fun i => if i = self
              then reg i ++ items.map (fun x => (x.1, { pm := some x.2, owns := true }))
              else reg i, w) := by
  intro items
  induction items with
  | nil => intro reg w; simp [register_all]
  | cons item rest ih =>
    intro reg w
    simp only [register_all, notify_all_at_thread_exit_spec, ih]
    congr 1
    funext i
    by_cases hi : i = self <;> simp [hi]

/-- The loop of `thread_entry` over stored locks that all own: it returns, has
called `unlock` on each mutex once, in order, and leaves every lock not
owning. -/
theorem unlock_stored_owning :
    ∀ (items : List (Nat × Nat)) (w : World),
      (unlock_stored (items.map (fun x => (x.1, { pm := some x.2, owns := true }))) w).1
        = Outcome.ret () ∧
      (unlock_stored (items.map (fun x => (x.1, { pm := some x.2, owns := true }))) w).2.1
        = items.map (fun x => (x.1, { pm := some x.2, owns := false })) ∧
      (unlock_stored (items.map (fun x => (x.1, { pm := some x.2, owns := true }))) w).2.2.log
        = w.log ++ items.map (fun x => Event.mutexUnlock x.2) := by
  intro items
  induction items with
  | nil => intro w; simp [unlock_stored]
  | cons item rest ih =>
    intro w
    obtain ⟨h1, h2, h3⟩ := ih (mutex.unlock item.2 w)
    simp only [List.map_cons, unlock_stored, unique_lock.unlock, Bool.not_true]
    simp only [Bool.false_eq_true, if_false]
    refine ⟨h1, ?_, ?_⟩
    · simp [h2]
    · rw [h3]
      simp [mutex.unlock]

/-- A thread `self` whose entry in the map is empty runs a callable that
registers, in order, the items `(cond, m)`, each with a lock owning the mutex
`m`.  The registrations leave the world as it was (no mutex call) and store the
owning locks in order.  When the callable has returned, `thread_entry` returns
having made exactly the calls `m.unlock()`, one per item in the order of
registration; every lock stored for `self` is then not owning, and the entry of
every other identity is as it was. -/
theorem thread_exit_unlocks_fresh_entry (self : thread.id) (items : List (Nat × Nat))
    (reg : Registry) (w : World) (h0 : reg self = []) :
    (register_all self items (reg, w)).2 = w ∧
    (register_all self items (reg, w)).1 self
      = items.map (fun x => (x.1, { pm := some x.2, owns := true })) ∧
    (thread_entry self (register_all self items) reg w).1 = Outcome.ret () ∧
    (thread_entry self (register_all self items) reg w).2.2.log
      = w.log ++ items.map (fun x => Event.mutexUnlock x.2) ∧
    (thread_entry self (register_all self items) reg w).2.1 self
      = items.map (fun x => (x.1, { pm := some x.2, owns := false })) ∧
    (∀ other, other ≠ self →
      (thread_entry self (register_all self items) reg w).2.1 other = reg other) := by
  obtain ⟨h1, h2, h3⟩ := unlock_stored_owning items w
  simp only [thread_entry, register_all_spec, if_true, h0, List.nil_append]
  refine ⟨trivial, trivial, h1, h3, h2, ?_⟩
  intro other ho
  simp [ho]

/-- C13 (fails on the code): two threads that have the same identity, one
after the other (the identity is the address of the `Thread`, freed by `join()`
and given out again by `new`).  The first registers a lock owning mutex 3 and
ends: `thread_entry` unlocks 3 and leaves the lock, not owning, in the entry.
The second registers a lock owning mutex 5 and ends: `thread_entry` first calls
`unlock()` on the lock left by the first thread, which raises
`operation_not_permitted`; mutex 5 is never unlocked and its stored lock still
owns. -/
theorem thread_exit_stale_entry_blocks_unlock :
    firstExit.1 = Outcome.ret () ∧
    firstExit.2.2.log = [Event.mutexUnlock 3] ∧
    firstExit.2.1 { handle_ := 4096 } = [(1, { pm := some 3, owns := false })] ∧
    (register_all { handle_ := 4096 } [(2, 5)] (firstExit.2.1, firstExit.2.2)).2.log
      = [Event.mutexUnlock 3] ∧
    (register_all { handle_ := 4096 } [(2, 5)] (firstExit.2.1, firstExit.2.2)).1
        { handle_ := 4096 }
      = [(1, { pm := some 3, owns := false }), (2, { pm := some 5, owns := true })] ∧
    secondExit.1 = Outcome.raise errc.operation_not_permitted ∧
    secondExit.2.2.log = [Event.mutexUnlock 3] ∧
    Event.mutexUnlock 5 ∉ secondExit.2.2.log ∧
    secondExit.2.1 { handle_ := 4096 }
      = [(1, { pm := some 3, owns := false }), (2, { pm := some 5, owns := true })] := by
  decide

/-- A `try_lock` that the environment lets succeed raises the count of the
lockable by one; the `unlock` that follows restores the counts. -/
theorem held_restore (h : Nat → Nat) (m : Nat) :
    (fun k => if k = m then (if k = m then h k + 1 else h k) - 1 else
      (if k = m then h k + 1 else h k)) = h := by
  funext k
  by_cases hk : k = m <;> simp [hk]

/-- When the first `k` calls of `try_lock` succeed and the next one fails,
`_lock_impl_helper(idx, first, rest...)` returns `idx + k`, having tried the
first `k` lockables with success, tried the one at position `k` without, and
unlocked the first `k` in reverse order; the caller holds what it held. -/
theorem lock_impl_helper_fail (env : Env) :
    ∀ (rest : List Nat) (first : Nat) (idx : Int) (k m : Nat) (w : World),
      0 ≤ idx →
      (first :: rest)[k]? = some m →
      (∀ i, i < k → env.tryOk (w.nTry + i) = true) →
      env.tryOk (w.nTry + k) = false →
      (_lock_impl_helper env idx first rest w).1 = idx + k ∧
      (_lock_impl_helper env idx first rest w).2.log
        = w.log ++ ((first :: rest).take k).map (fun x => Event.mutexTryLock x true)
            ++ [Event.mutexTryLock m false]
            ++ ((first :: rest).take k).reverse.map Event.mutexUnlock ∧
      (_lock_impl_helper env idx first rest w).2.held = w.held ∧
      (_lock_impl_helper env idx first rest w).2.nTry = w.nTry + k + 1 := by
  intro rest
  induction rest with
  | nil =>
    intro first idx k m w _ hk _ hfail
    cases k with
    | zero =>
      simp at hk hfail
      subst hk
      simp [_lock_impl_helper, _try_lock_impl, mutex.try_lock, hfail]
    | succ k => simp at hk
  | cons c de ih =>
    intro first idx k m w hidx hk hok hfail
    cases k with
    | zero =>
      simp at hk hfail
      subst hk
      simp [_lock_impl_helper, mutex.try_lock, hfail]
    | succ k =>
      have h0 : env.tryOk w.nTry = true := by simpa using hok 0 (by omega)
      have hk' : (c :: de)[k]? = some m := by simpa using hk
      obtain ⟨r1, r2, r3, r4⟩ := ih c (idx + 1) k m (mutex.try_lock env first w).2
        (by omega) hk'
        (by
          intro i hi
          have := hok (i + 1) (by omega)
          simp only [mutex.try_lock]
          rw [← this]; congr 1; omega)
        (by
          simp only [mutex.try_lock]
          rw [← hfail]; congr 1; omega)
      have hne : (_lock_impl_helper env (idx + 1) c de (mutex.try_lock env first w).2).1 ≠ -1 := by
        rw [r1]; omega
      simp only [_lock_impl_helper]
      have ht : (mutex.try_lock env first w).1 = true := by simpa [mutex.try_lock] using h0
      simp only [ht, if_true, hne, ne_eq, not_false_eq_true]
      refine ⟨?_, ?_, ?_, ?_⟩
      · rw [r1]; push_cast; omega
      · simp only [mutex.unlock]
        rw [r2]
        simp [mutex.try_lock, h0]
      · simp only [mutex.unlock]
        rw [r3]
        simp only [mutex.try_lock, h0, and_true]
        exact held_restore w.held first
      · simp only [mutex.unlock]
        rw [r4]
        simp only [mutex.try_lock]
        omega

/-- C17: one pass of the multi-lock `lock(a, b, cde...)` in which the first
`k` calls of `try_lock` on the remaining resources succeed and the one on the
resource `m` at position `k` fails.  In the world left by the guard's
`a.lock()`, `_lock_impl_helper(0, b, cde...)` returns `k`, and its calls are the
`k` successful tries in listed order, the failed try on `m` and the unlocks of
those `k` resources in reverse order.  After the guard's destructor the calls
of the pass are those between `a.lock()` and a final `a.unlock()`, and the
caller holds exactly what it held before the pass.  The call of `lock` then
goes on as a fresh call from that very world.  When `m` is neither `a` nor one
of the `k` resources before it, the pass contains no `m.unlock()`. -/
theorem lock_failed_pass_rolls_back (env : Env) (fuel a b : Nat) (cde : List Nat)
    (k m : Nat) (w : World)
    (hk : (b :: cde)[k]? = some m)
    (hok : ∀ i, i < k → env.tryOk (w.nTry + i) = true)
    (hfail : env.tryOk (w.nTry + k) = false) :
    (_lock_impl_helper env 0 b cde (lock_guard.ctor a w)).1 = k ∧
    (_lock_impl_helper env 0 b cde (lock_guard.ctor a w)).2.log
      = w.log ++ ([Event.mutexLock a]
          ++ ((b :: cde).take k).map (fun x => Event.mutexTryLock x true)
          ++ [Event.mutexTryLock m false]
          ++ ((b :: cde).take k).reverse.map Event.mutexUnlock) ∧
    (lock_guard.dtor a (_lock_impl_helper env 0 b cde (lock_guard.ctor a w)).2).log
      = w.log ++ ([Event.mutexLock a]
          ++ ((b :: cde).take k).map (fun x => Event.mutexTryLock x true)
          ++ [Event.mutexTryLock m false]
          ++ ((b :: cde).take k).reverse.map Event.mutexUnlock
          ++ [Event.mutexUnlock a]) ∧
    (lock_guard.dtor a (_lock_impl_helper env 0 b cde (lock_guard.ctor a w)).2).held = w.held ∧
    (lock_guard.dtor a (_lock_impl_helper env 0 b cde (lock_guard.ctor a w)).2).nTry
      = w.nTry + k + 1 ∧
    lock env (fuel + 1) a b cde w
      = lock env fuel a b cde
          (lock_guard.dtor a (_lock_impl_helper env 0 b cde (lock_guard.ctor a w)).2) ∧
    (m ≠ a → m ∉ (b :: cde).take k →
      Event.mutexUnlock m ∉ ([Event.mutexLock a]
          ++ ((b :: cde).take k).map (fun x => Event.mutexTryLock x true)
          ++ [Event.mutexTryLock m false]
          ++ ((b :: cde).take k).reverse.map Event.mutexUnlock
          ++ [Event.mutexUnlock a])) := by
  obtain ⟨r1, r2, r3, r4⟩ := lock_impl_helper_fail env cde b 0 k m (lock_guard.ctor a w)
    (le_refl 0) hk hok hfail
  have hne : (_lock_impl_helper env 0 b cde (lock_guard.ctor a w)).1 ≠ -1 := by
    rw [r1]; omega
  refine ⟨by rw [r1]; simp, ?_, ?_, ?_, ?_, ?_, ?_⟩
  · rw [r2]
    simp [lock_guard.ctor, mutex.lock]
  · simp only [lock_guard.dtor, mutex.unlock]
    rw [r2]
    simp [lock_guard.ctor, mutex.lock]
  · simp only [lock_guard.dtor, mutex.unlock]
    rw [r3]
    simp only [lock_guard.ctor, mutex.lock]
    exact held_restore w.held a
  · simp only [lock_guard.dtor, mutex.unlock]
    rw [r4]
    simp [lock_guard.ctor, mutex.lock]
  · simp only [lock, hne, if_false]
  · intro hma hmk
    simp only [List.mem_append, List.mem_map, List.mem_singleton, List.mem_reverse,
      not_or]
    refine ⟨⟨⟨⟨by simp, by simp⟩, by simp⟩, ?_⟩, by simpa using hma⟩
    rintro ⟨x, hx, hxe⟩
    simp only [Event.mutexUnlock.injEq] at hxe
    exact hmk (hxe ▸ hx)

/-- C17 at a concrete input: `lock(0, 1, 2, 3)` where the tries on 1 and 2
succeed and the try on 3 fails; the helper returns 2, the pass ends with the
unlocks of 2, 1 and 0, and the call goes on with a second pass, which
succeeds. -/
theorem lock_failed_pass_rolls_back_witness :
    (_lock_impl_helper envThirdTryFails 0 1 [2, 3] (lock_guard.ctor 0 World.init)).1 = 2 ∧
    (lock_guard.dtor 0
        (_lock_impl_helper envThirdTryFails 0 1 [2, 3] (lock_guard.ctor 0 World.init)).2).log
      = [Event.mutexLock 0, Event.mutexTryLock 1 true, Event.mutexTryLock 2 true,
         Event.mutexTryLock 3 false, Event.mutexUnlock 2, Event.mutexUnlock 1,
         Event.mutexUnlock 0] ∧
    lock envThirdTryFails 2 0 1 [2, 3] World.init
      = lock envThirdTryFails 1 0 1 [2, 3]
          (lock_guard.dtor 0
            (_lock_impl_helper envThirdTryFails 0 1 [2, 3] (lock_guard.ctor 0 World.init)).2) ∧
    (lock envThirdTryFails 2 0 1 [2, 3] World.init).isSome = true := by
  have h := lock_failed_pass_rolls_back envThirdTryFails 1 0 1 [2, 3] 2 3 World.init rfl
    (by intro i hi; simp [World.init, envThirdTryFails]; omega)
    (by simp [World.init, envThirdTryFails])
  exact ⟨h.1, by simpa [World.init] using h.2.2.1, h.2.2.2.2.2.1, by decide⟩

/-- On a lock with a mutex `m`, `wait_for(lock, rel_time)` makes the one timed
wait on `m` and maps the result code the environment gives. -/
theorem wait_for_eq (env : Env) (lock : unique_lock) (m : Nat) (hm : lock.pm = some m)
    (rel_time : Int) (w : World) :
    condition_variable.wait_for env lock rel_time w
      = (condition_variable._handle_result (env.waitRes w.nWait),
         { w with nWait := w.nWait + 1,
                  log := w.log ++ [Event.condvarWaitTimeout m (rel_time % 2 ^ 64).toNat
                    (env.waitRes w.nWait)] }) := by
  simp [condition_variable.wait_for, hm, condvarWaitTimeout]

/-- A run of the loop of `wait_until(lock, atime)` that returns a status has
made `n` rounds of a timed-out wait and a clock reading; it returns `timeout`
right after them when the most recent reading is not before the deadline, and
`no_timeout` right after one more timed wait, which returned the success
code. -/
theorem wait_until_loop_shape (env : Env) (lock : unique_lock) (m : Nat)
    (hm : lock.pm = some m) (atime : Int) :
    ∀ (fuel : Nat) (now : Int) (w w' : World) (st : cv_status),
      condition_variable.wait_until_loop env lock atime fuel now w = some (Outcome.ret st, w') →
      ∃ n, w'.nNow = w.nNow + n ∧
        (st = cv_status.timeout →
          w'.log = w.log ++ untilRounds env m atime n now w.nNow ∧
          atime ≤ untilNow env n now w.nNow ∧ w'.nWait = w.nWait + n) ∧
        (st = cv_status.no_timeout →
          w'.log = w.log ++ untilRounds env m atime n now w.nNow
            ++ [Event.condvarWaitTimeout m
                  ((atime - untilNow env n now w.nNow) % 2 ^ 64).toNat 0] ∧
          untilNow env n now w.nNow < atime ∧ w'.nWait = w.nWait + n + 1) := by
  intro fuel
  induction fuel with
  | zero => intro now w w' st h; simp [condition_variable.wait_until_loop] at h
  | succ fuel ih =>
    intro now w w' st h
    unfold condition_variable.wait_until_loop at h
    by_cases hlt : now < atime
    · simp only [hlt, if_true, wait_for_eq env lock m hm] at h
      by_cases h0 : env.waitRes w.nWait = 0
      · simp only [condition_variable._handle_result, R_SUCCEEDED, h0, beq_self_eq_true,
          if_true, Option.some.injEq, Prod.mk.injEq, Outcome.ret.injEq] at h
        obtain ⟨hst, hw⟩ := h
        subst hst hw
        exact ⟨0, by simp, by simp, by simp [untilRounds, untilNow, hlt]⟩
      · by_cases h1 : env.waitRes w.nWait = 0xEA01
        · simp only [condition_variable._handle_result, R_SUCCEEDED, h1] at h
          simp only [Nat.reduceBEq, Bool.false_eq_true, if_false, if_true] at h
          obtain ⟨n, hn, ht, hnt⟩ := ih _ _ _ _ h
          simp only [Clock.now] at hn ht hnt
          refine ⟨n + 1, by omega, ?_, ?_⟩
          · intro hs
            obtain ⟨a1, a2, a3⟩ := ht hs
            refine ⟨?_, by simpa [untilNow] using a2, by omega⟩
            rw [a1]
            simp [untilRounds, h1]
          · intro hs
            obtain ⟨a1, a2, a3⟩ := hnt hs
            refine ⟨?_, by simpa [untilNow] using a2, by omega⟩
            rw [a1]
            simp [untilRounds, untilNow, h1]
        · simp [condition_variable._handle_result, R_SUCCEEDED, h0, h1] at h
    · simp only [hlt, if_false, Option.some.injEq, Prod.mk.injEq, Outcome.ret.injEq] at h
      obtain ⟨hst, hw⟩ := h
      subst hst hw
      exact ⟨0, by simp, by simp [untilRounds, untilNow]; omega, by simp⟩

/-- The loop of `wait_until(lock, atime)` does return: when `n` rounds in a
row find the last reading before the deadline and their timed wait returns the
timeout sentinel, the loop returns `timeout` right after them if the reading
then is not before the deadline, and returns `no_timeout` right after one more
timed wait if that reading is before the deadline and that wait returns the
success code. -/
theorem wait_until_loop_total (env : Env) (lock : unique_lock) (m : Nat)
    (hm : lock.pm = some m) (atime : Int) :
    ∀ (n fuel : Nat) (now : Int) (w : World),
      (∀ i, i < n → untilNow env i now w.nNow < atime ∧ env.waitRes (w.nWait + i) = 0xEA01) →
      (atime ≤ untilNow env n now w.nNow →
        ∃ w', condition_variable.wait_until_loop env lock atime (n + fuel + 1) now w
            = some (Outcome.ret cv_status.timeout, w') ∧
          w'.log = w.log ++ untilRounds env m atime n now w.nNow ∧
          w'.nWait = w.nWait + n ∧ w'.nNow = w.nNow + n) ∧
      (untilNow env n now w.nNow < atime → env.waitRes (w.nWait + n) = 0 →
        ∃ w', condition_variable.wait_until_loop env lock atime (n + fuel + 1) now w
            = some (Outcome.ret cv_status.no_timeout, w') ∧
          w'.log = w.log ++ untilRounds env m atime n now w.nNow
            ++ [Event.condvarWaitTimeout m
                  ((atime - untilNow env n now w.nNow) % 2 ^ 64).toNat 0] ∧
          w'.nWait = w.nWait + n + 1 ∧ w'.nNow = w.nNow + n) := by
  intro n
  induction n with
  | zero =>
    intro fuel now w _
    constructor
    · intro hge
      have hn : ¬ now < atime := by simpa [untilNow] using hge
      exact ⟨w, by simp [condition_variable.wait_until_loop, hn], by simp [untilRounds],
        rfl, rfl⟩
    · intro hlt h0
      have hl : now < atime := by simpa [untilNow] using hlt
      have h0' : env.waitRes w.nWait = 0 := by simpa using h0
      refine ⟨(condition_variable.wait_for env lock (atime - now) w).2, ?_, ?_, ?_, ?_⟩
      · simp only [Nat.zero_add, condition_variable.wait_until_loop, hl, if_true,
          wait_for_eq env lock m hm, condition_variable._handle_result, R_SUCCEEDED, h0',
          beq_self_eq_true]
      · simp [untilRounds, untilNow, wait_for_eq env lock m hm, h0']
      · simp [wait_for_eq env lock m hm]
      · simp [wait_for_eq env lock m hm]
  | succ n ih =>
    intro fuel now w hr
    obtain ⟨hl, h1⟩ := hr 0 (by omega)
    have hl' : now < atime := by simpa [untilNow] using hl
    have h1' : env.waitRes w.nWait = 0xEA01 := by simpa using h1
    have hstep : condition_variable.wait_until_loop env lock atime (n + 1 + fuel + 1) now w
        = condition_variable.wait_until_loop env lock atime (n + fuel + 1) (env.clock w.nNow)
            (Clock.now env (condition_variable.wait_for env lock (atime - now) w).2).2 := by
      have e : n + 1 + fuel + 1 = (n + fuel + 1) + 1 := by omega
      rw [e]
      simp [condition_variable.wait_until_loop, hl', wait_for_eq env lock m hm,
        condition_variable._handle_result, R_SUCCEEDED, h1', Clock.now]
    obtain ⟨iht, ihn⟩ := ih fuel (env.clock w.nNow)
      (Clock.now env (condition_variable.wait_for env lock (atime - now) w).2).2
      (by
        intro i hi
        obtain ⟨q1, q2⟩ := hr (i + 1) (by omega)
        simp only [wait_for_eq env lock m hm, Clock.now]
        refine ⟨by simpa [untilNow] using q1, ?_⟩
        rw [← q2]; congr 1; omega)
    constructor
    · intro hge
      obtain ⟨w', e1, e2, e3, e4⟩ := iht
        (by simpa [untilNow, wait_for_eq env lock m hm, Clock.now] using hge)
      refine ⟨w', by rw [hstep]; exact e1, ?_, ?_, ?_⟩
      · rw [e2]
        simp [untilRounds, wait_for_eq env lock m hm, Clock.now, h1']
      · rw [e3]
        simp only [wait_for_eq env lock m hm, Clock.now]
        omega
      · rw [e4]
        simp only [wait_for_eq env lock m hm, Clock.now]
        omega
    · intro hlt h0
      obtain ⟨w', e1, e2, e3, e4⟩ := ihn
        (by simpa [untilNow, wait_for_eq env lock m hm, Clock.now] using hlt)
        (by
          simp only [wait_for_eq env lock m hm, Clock.now]
          rw [← h0]; congr 1; omega)
      refine ⟨w', by rw [hstep]; exact e1, ?_, ?_, ?_⟩
      · rw [e2]
        simp [untilRounds, untilNow, wait_for_eq env lock m hm, Clock.now, h1']
      · rw [e3]
        simp only [wait_for_eq env lock m hm, Clock.now]
        omega
      · rw [e4]
        simp only [wait_for_eq env lock m hm, Clock.now]
        omega

/-- C18: `wait_until(lock, atime)` without predicate on a lock with a mutex
`m`, for every environment; `t0` is the first clock reading.  Steady clock and
`t0` before the deadline: the call reads the clock once, makes the one call
`wait_for(lock, atime - t0)` and ends as that call ends.  Either clock and `t0`
at or past the deadline: it returns `timeout` after the clock reading alone,
without a wait.  Clock that is not steady: a run returning `timeout` read the
clock again after each of its timed waits, all of which timed out, and the
most recent reading is not before the deadline; a run returning `no_timeout`
did the same and then ends with a timed wait that returned the success code.
And such runs do return: when `n` rounds in a row find the reading before the
deadline and time out, the call returns `timeout` if the next reading is not
before the deadline, and returns `no_timeout`, right after that wait, if the
next reading is before the deadline and the next wait returns the success
code. -/
theorem wait_until_contract (env : Env) (lock : unique_lock) (m : Nat) (hm : lock.pm = some m)
    (atime : Int) (fuel : Nat) (w : World) :
    (env.clock w.nNow < atime →
      condition_variable.wait_until env true lock atime fuel w
        = some (condition_variable.wait_for env lock (atime - env.clock w.nNow)
            (Clock.now env w).2) ∧
      (condition_variable.wait_for env lock (atime - env.clock w.nNow) (Clock.now env w).2).1
        = condition_variable._handle_result (env.waitRes w.nWait) ∧
      (condition_variable.wait_for env lock (atime - env.clock w.nNow) (Clock.now env w).2).2.log
        = w.log ++ [Event.now (env.clock w.nNow),
            Event.condvarWaitTimeout m ((atime - env.clock w.nNow) % 2 ^ 64).toNat
              (env.waitRes w.nWait)]) ∧
    (∀ is_steady, atime ≤ env.clock w.nNow →
      condition_variable.wait_until env is_steady lock atime (fuel + 1) w
        = some (Outcome.ret cv_status.timeout, (Clock.now env w).2) ∧
      (Clock.now env w).2.log = w.log ++ [Event.now (env.clock w.nNow)] ∧
      (Clock.now env w).2.nWait = w.nWait) ∧
    (∀ w', condition_variable.wait_until env false lock atime fuel w
        = some (Outcome.ret cv_status.timeout, w') →
      ∃ n, w'.log = w.log ++ Event.now (env.clock w.nNow)
            :: untilRounds env m atime n (env.clock w.nNow) (w.nNow + 1) ∧
        atime ≤ untilNow env n (env.clock w.nNow) (w.nNow + 1) ∧
        w'.nWait = w.nWait + n ∧ w'.nNow = w.nNow + n + 1) ∧
    (∀ w', condition_variable.wait_until env false lock atime fuel w
        = some (Outcome.ret cv_status.no_timeout, w') →
      ∃ n, w'.log = w.log ++ Event.now (env.clock w.nNow)
            :: (untilRounds env m atime n (env.clock w.nNow) (w.nNow + 1)
              ++ [Event.condvarWaitTimeout m
                ((atime - untilNow env n (env.clock w.nNow) (w.nNow + 1)) % 2 ^ 64).toNat 0]) ∧
        untilNow env n (env.clock w.nNow) (w.nNow + 1) < atime ∧
        w'.nWait = w.nWait + n + 1 ∧ w'.nNow = w.nNow + n + 1) ∧
    (∀ n,
      (∀ i, i < n → untilNow env i (env.clock w.nNow) (w.nNow + 1) < atime ∧
        env.waitRes (w.nWait + i) = 0xEA01) →
      atime ≤ untilNow env n (env.clock w.nNow) (w.nNow + 1) →
      ∃ w', condition_variable.wait_until env false lock atime (n + fuel + 1) w
          = some (Outcome.ret cv_status.timeout, w') ∧
        w'.log = w.log ++ Event.now (env.clock w.nNow)
            :: untilRounds env m atime n (env.clock w.nNow) (w.nNow + 1) ∧
        w'.nWait = w.nWait + n ∧ w'.nNow = w.nNow + n + 1) ∧
    (∀ n,
      (∀ i, i < n → untilNow env i (env.clock w.nNow) (w.nNow + 1) < atime ∧
        env.waitRes (w.nWait + i) = 0xEA01) →
      untilNow env n (env.clock w.nNow) (w.nNow + 1) < atime →
      env.waitRes (w.nWait + n) = 0 →
      ∃ w', condition_variable.wait_until env false lock atime (n + fuel + 1) w
          = some (Outcome.ret cv_status.no_timeout, w') ∧
        w'.log = w.log ++ Event.now (env.clock w.nNow)
            :: (untilRounds env m atime n (env.clock w.nNow) (w.nNow + 1)
              ++ [Event.condvarWaitTimeout m
                ((atime - untilNow env n (env.clock w.nNow) (w.nNow + 1)) % 2 ^ 64).toNat 0]) ∧
        w'.nWait = w.nWait + n + 1 ∧ w'.nNow = w.nNow + n + 1) := by
  refine ⟨?_, ?_, ?_, ?_, ?_, ?_⟩
  · intro hlt
    refine ⟨?_, ?_, ?_⟩
    · simp [condition_variable.wait_until, Clock.now, hlt]
    · simp [wait_for_eq env lock m hm, Clock.now]
    · simp [wait_for_eq env lock m hm, Clock.now]
  · intro is_steady hge
    have hn : ¬ env.clock w.nNow < atime := by omega
    simp [condition_variable.wait_until, condition_variable.wait_until_loop, Clock.now, hn]
  · intro w' h
    simp only [condition_variable.wait_until, Bool.false_and, Bool.false_eq_true, if_false] at h
    obtain ⟨n, hn, ht, _⟩ := wait_until_loop_shape env lock m hm atime _ _ _ _ _ h
    obtain ⟨a1, a2, a3⟩ := ht rfl
    simp only [Clock.now] at hn a1 a2 a3
    exact ⟨n, by rw [a1]; simp, a2, a3, by omega⟩
  · intro w' h
    simp only [condition_variable.wait_until, Bool.false_and, Bool.false_eq_true, if_false] at h
    obtain ⟨n, hn, _, hnt⟩ := wait_until_loop_shape env lock m hm atime _ _ _ _ _ h
    obtain ⟨a1, a2, a3⟩ := hnt rfl
    simp only [Clock.now] at hn a1 a2 a3
    exact ⟨n, by rw [a1]; simp, a2, a3, by omega⟩
  · intro n hr hge
    obtain ⟨w', e1, e2, e3, e4⟩ :=
      (wait_until_loop_total env lock m hm atime n fuel (env.clock w.nNow) (Clock.now env w).2
        (by simpa [Clock.now] using hr)).1 (by simpa [Clock.now] using hge)
    simp only [Clock.now] at e1 e2 e3 e4
    refine ⟨w', ?_, by rw [e2]; simp, e3, by omega⟩
    simp only [condition_variable.wait_until, Bool.false_and, Bool.false_eq_true, if_false,
      Clock.now]
    exact e1
  · intro n hr hlt h0
    obtain ⟨w', e1, e2, e3, e4⟩ :=
      (wait_until_loop_total env lock m hm atime n fuel (env.clock w.nNow) (Clock.now env w).2
        (by simpa [Clock.now] using hr)).2 (by simpa [Clock.now] using hlt)
        (by simpa [Clock.now] using h0)
    simp only [Clock.now] at e1 e2 e3 e4
    refine ⟨w', ?_, by rw [e2]; simp, e3, by omega⟩
    simp only [condition_variable.wait_until, Bool.false_and, Bool.false_eq_true, if_false,
      Clock.now]
    exact e1

/-- C18 at two concrete inputs, a clock that is not steady and reads 0, 10,
20, the deadline 15 and the mutex 7.  When every wait times out, the call
returns `timeout` after two rounds, the last reading being 20.  When the first
wait times out and the second returns the success code, the call returns
`no_timeout` right after that second wait. -/
theorem wait_until_contract_witness :
    (unique_lock.ctor_adopt 7).pm = some 7 ∧
    (∃ w', condition_variable.wait_until envClockAdvances false (unique_lock.ctor_adopt 7) 15
          (2 + 3 + 1) World.init = some (Outcome.ret cv_status.timeout, w') ∧
        w'.log = World.init.log ++ Event.now (envClockAdvances.clock World.init.nNow)
            :: untilRounds envClockAdvances 7 15 2 (envClockAdvances.clock World.init.nNow)
                (World.init.nNow + 1) ∧
        w'.nWait = World.init.nWait + 2 ∧ w'.nNow = World.init.nNow + 2 + 1) ∧
    (∃ w', condition_variable.wait_until envSecondWaitWakes false (unique_lock.ctor_adopt 7) 15
          (1 + 3 + 1) World.init = some (Outcome.ret cv_status.no_timeout, w') ∧
        w'.log = World.init.log ++ Event.now (envSecondWaitWakes.clock World.init.nNow)
            :: (untilRounds envSecondWaitWakes 7 15 1
                  (envSecondWaitWakes.clock World.init.nNow) (World.init.nNow + 1)
              ++ [Event.condvarWaitTimeout 7
                ((15 - untilNow envSecondWaitWakes 1
                    (envSecondWaitWakes.clock World.init.nNow) (World.init.nNow + 1))
                  % 2 ^ 64).toNat 0]) ∧
        w'.nWait = World.init.nWait + 1 + 1 ∧ w'.nNow = World.init.nNow + 1 + 1) :=
  ⟨rfl,
    (wait_until_contract envClockAdvances (unique_lock.ctor_adopt 7) 7 rfl 15 3
      World.init).2.2.2.2.1 2 (by decide) (by decide),
    (wait_until_contract envSecondWaitWakes (unique_lock.ctor_adopt 7) 7 rfl 15 3
      World.init).2.2.2.2.2 1 (by decide) (by decide) (by decide)⟩

/-- Every step of either thread keeps both threads within what they hold at
most. -/
theorem race_step_keeps_holds (s s' : Race) (t : Tid)
    (h1 : s.holdsAtMost Tid.t1 = true) (h2 : s.holdsAtMost Tid.t2 = true)
    (hs : s.step t = some s') :
    s'.holdsAtMost Tid.t1 = true ∧ s'.holdsAtMost Tid.t2 = true := by
  obtain ⟨oa, ob, p1, p2⟩ := s
  rcases oa with _ | _ | _ <;> rcases ob with _ | _ | _ <;> cases p1 <;> cases p2 <;>
    cases t <;>
    simp [Race.step, Race.mutexLock, Race.mutexTryLock, Race.mutexUnlock, Race.pc, Race.owner,
      Race.setOwner, Race.setPc, Tid.first, Tid.second, Race.holdsAtMost] at h1 h2 hs <;>
    subst hs <;> decide

/-- In every reachable state both threads are within what they hold at most. -/
theorem race_reach_holds (s : Race) (h : Race.Reach s) :
    s.holdsAtMost Tid.t1 = true ∧ s.holdsAtMost Tid.t2 = true := by
  induction h with
  | init => decide
  | step s s' t _ hs ih => exact race_step_keeps_holds s s' t ih.1 ih.2 hs

/-- C16: thread `t1` runs `lock(A, B)` and thread `t2` runs `lock(B, A)`.  In
no state that an interleaving of their mutex calls can reach is `t1` blocked in
its `lock()` on a mutex held by `t2` while `t2` is blocked in its `lock()` on a
mutex held by `t1`. -/
theorem multi_lock_never_deadlocks (s : Race) (h : Race.Reach s) :
    ¬ (s.blockedBy Tid.t1 Tid.t2 ∧ s.blockedBy Tid.t2 Tid.t1) := by
  obtain ⟨h1, _⟩ := race_reach_holds s h
  rintro ⟨⟨hp1, _⟩, ⟨_, ho2⟩⟩
  obtain ⟨oa, ob, p1, p2⟩ := s
  simp only [Race.pc] at hp1
  subst hp1
  simp only [Race.owner, Tid.first] at ho2
  subst ho2
  simp [Race.holdsAtMost, Race.pc, Race.owner, Tid.first, Tid.second] at h1

/-- C16 at a concrete reachable state: `t1` has locked `A` and `t2` has locked
`B`, each about to try the other's mutex. -/
theorem multi_lock_never_deadlocks_witness :
    Race.Reach { ownerA := some Tid.t1, ownerB := some Tid.t2,
                 pc1 := Pc.try_second, pc2 := Pc.try_second } ∧
    ¬ (Race.blockedBy { ownerA := some Tid.t1, ownerB := some Tid.t2,
                        pc1 := Pc.try_second, pc2 := Pc.try_second } Tid.t1 Tid.t2 ∧
       Race.blockedBy { ownerA := some Tid.t1, ownerB := some Tid.t2,
                        pc1 := Pc.try_second, pc2 := Pc.try_second } Tid.t2 Tid.t1) :=
  have hr : Race.Reach { ownerA := some Tid.t1, ownerB := some Tid.t2,
                         pc1 := Pc.try_second, pc2 := Pc.try_second } :=
    Race.Reach.step _ _ Tid.t2
      (Race.Reach.step Race.init _ Tid.t1 Race.Reach.init (by decide : Race.step Race.init Tid.t1
        = some { ownerA := some Tid.t1, ownerB := none,
                 pc1 := Pc.try_second, pc2 := Pc.lock_first }))
      (by decide)
  ⟨hr, multi_lock_never_deadlocks _ hr⟩

end NxThread
